import Mathlib

/-!
# dyna-ai: chat backend

A shallow embedding of `src/models/GroupMessage.js`, `src/models/Group.js` and
`src/index.js`, followed by theorems about the embedded handlers.

Conventions of the embedding:

* JavaScript strings that are only compared and copied (ids, names, stored
  contents) are Lean `String`s; the plaintext handed to the codec is a
  `JsString`, a sequence of UTF-16 code units that may hold unpaired
  surrogates. A request field that may be absent is an `Option String`, and
  the JavaScript truthiness test `!x` on such a field is `falsy x`.
* `Map` objects (`activeConnections`, `typingUsers`) are insertion-ordered
  association lists (`JsMap`), with the operations `get`, `set`, `delete`,
  `has` and iteration in insertion order.
* Calls that leave the process (the block cipher of Node's `crypto`, the
  generation chain, the chat model, the vector store, the random IV, the
  clock) are explicit parameters of the handlers.
* Persisted collections are lists in insertion order; a handler takes the
  state before and returns the state after together with its response.
-/

namespace DynaAi

/-! ## Bytes and hex strings -/

/-- One octet of a `Buffer`. -/
abbrev Byte := Fin 256

/-- Lower-case hex digit of a nibble, as produced by `buf.toString('hex')`. -/
def hexDigit (n : Nat) : Char :=
  match n with
  | 0 => '0' | 1 => '1' | 2 => '2' | 3 => '3'
  | 4 => '4' | 5 => '5' | 6 => '6' | 7 => '7'
  | 8 => '8' | 9 => '9' | 10 => 'a' | 11 => 'b'
  | 12 => 'c' | 13 => 'd' | 14 => 'e' | _ => 'f'

/-- Value of a hex digit; `Buffer.from(s, 'hex')` accepts both cases. -/
def hexVal (c : Char) : Option Nat :=
  if '0' ≤ c ∧ c ≤ '9' then some (c.toNat - 48)
  else if 'a' ≤ c ∧ c ≤ 'f' then some (c.toNat - 87)
  else if 'A' ≤ c ∧ c ≤ 'F' then some (c.toNat - 55)
  else none

/-- Whether a character is a hex digit. -/
def isHexChar (c : Char) : Bool := (hexVal c).isSome

/-- Hex rendering of a buffer: `buf.toString('hex')`, two digits per byte. -/
def toHex : List Byte → List Char
  | [] => []
  | b :: bs => hexDigit (b.val / 16) :: hexDigit (b.val % 16) :: toHex bs

/-- Decoding of `Buffer.from(s, 'hex')`: pairs of hex digits are decoded
until the first pair that is not hex; a trailing single character is
dropped. -/
def bufferFromHex : List Char → List Byte
  | a :: b :: rest =>
    match hexVal a, hexVal b with
    | some x, some y => Fin.ofNat (16 * x + y) :: bufferFromHex rest
    | _, _ => []
  | _ => []

/-- JavaScript `s.split(sep)` for a one-character separator. -/
def splitOn (sep : Char) : List Char → List (List Char)
  | [] => [[]]
  | c :: cs =>
    if c = sep then [] :: splitOn sep cs
    else
      match splitOn sep cs with
      | [] => [[c]]
      | p :: ps => (c :: p) :: ps

/-! ## JavaScript strings as UTF-16 -/

/-- One UTF-16 code unit. -/
abbrev CodeUnit := Fin 65536

/-- A JavaScript string: any sequence of code units. -/
abbrev JsString := List CodeUnit

/-- A leading (high) surrogate, `D800` to `DBFF`. -/
def isHighSurrogate (u : CodeUnit) : Bool := 0xD800 ≤ u.val && u.val ≤ 0xDBFF

/-- A trailing (low) surrogate, `DC00` to `DFFF`. -/
def isLowSurrogate (u : CodeUnit) : Bool := 0xDC00 ≤ u.val && u.val ≤ 0xDFFF

/-- The replacement character U+FFFD. -/
def replacementChar : Char := Char.ofNat 0xFFFD

/-- The character a code unit stands for on its own: itself, or U+FFFD for
a surrogate. -/
def scalarOf (u : CodeUnit) : Char :=
  if isHighSurrogate u || isLowSurrogate u then replacementChar else Char.ofNat u.val

/-- The characters that the `utf8` encoding of a JavaScript string carries:
a surrogate pair is one character, an unpaired surrogate becomes U+FFFD. -/
def usvChars : JsString → List Char
  | [] => []
  | [u] => [scalarOf u]
  | u :: v :: rest =>
    if isHighSurrogate u && isLowSurrogate v then
      Char.ofNat (0x10000 + (u.val - 0xD800) * 0x400 + (v.val - 0xDC00)) :: usvChars rest
    else scalarOf u :: usvChars (v :: rest)

/-- The string read back after a trip through `utf8`: the text with every
unpaired surrogate replaced by U+FFFD. -/
def toWellFormed (text : JsString) : String := String.mk (usvChars text)

/-- The code units of a character: one unit below `10000`, a surrogate
pair from there on. -/
def utf16Units (c : Char) : JsString :=
  if c.toNat < 0x10000 then [Fin.ofNat c.toNat]
  else
    [Fin.ofNat (0xD800 + (c.toNat - 0x10000) / 0x400),
     Fin.ofNat (0xDC00 + (c.toNat - 0x10000) % 0x400)]

/-- The code units of a list of characters. -/
def utf16Chars : List Char → JsString
  | [] => []
  | c :: cs => utf16Units c ++ utf16Chars cs

/-- The JavaScript string of a well-formed string. -/
def utf16 (s : String) : JsString := utf16Chars s.data

/-! ## Message codec (`src/models/GroupMessage.js`) -/

/-- The block cipher of Node's `crypto` as the codec uses it.
`encrypt key iv text` stands for
`createCipheriv('aes-256-cbc', key, iv)` followed by
`update(text, 'utf8', 'hex') + final('hex')`, and `decrypt key iv hex` for
`createDecipheriv('aes-256-cbc', key, iv)` followed by
`update(hex, 'hex', 'utf8') + final('utf8')`. Either may throw. The text
given to `encrypt` is any JavaScript string; the text `decrypt` returns is
decoded from `utf8` and is therefore well-formed. -/
structure Aes256Cbc where
  encrypt : List Byte → List Byte → JsString → Except String (List Char)
  decrypt : List Byte → List Byte → List Char → Except String String

/-- Contract of the cipher: with a 32-byte key and a 16-byte IV, encryption
succeeds with a hex string, and decryption under the same key and IV gives
back what the `utf8` encoding carried of the text: the text with every
unpaired surrogate replaced by U+FFFD. -/
def Aes256Cbc.Lawful (C : Aes256Cbc) : Prop :=
  ∀ (key iv : List Byte) (text : JsString), key.length = 32 → iv.length = 16 →
    ∃ ct, C.encrypt key iv text = .ok ct ∧ (∀ c ∈ ct, isHexChar c = true) ∧
      C.decrypt key iv ct = .ok (toWellFormed text)

/-- Source `encryptMessage(text, encryptionKey)` together with the IV the
call drew: `offered` is what `crypto.randomBytes(16)` returns if it is called.
The first component is `none` when the function returned at its first line,
before any IV was drawn; the second is the value returned or the error
thrown. -/
def encryptMessageDraw (C : Aes256Cbc) (offered : List Byte) (text : JsString)
    (encryptionKey : String) : Option (List Byte) × Except String String :=
  if text = [] then (none, .ok "")
  else
    (some offered,
      match C.encrypt (bufferFromHex encryptionKey.data) offered text with
      | .error e => .error e
      | .ok encrypted => .ok (String.mk (toHex offered ++ ':' :: encrypted)))

/-- Source `encryptMessage(text, encryptionKey)`; `iv` is the value drawn
by `crypto.randomBytes(16)`. -/
def encryptMessage (C : Aes256Cbc) (iv : List Byte) (text : JsString) (encryptionKey : String) :
    Except String String :=
  (encryptMessageDraw C iv text encryptionKey).2

/-- Source `decryptMessage(encryptedText, encryptionKey)`. The array
destructuring takes the first two pieces of the split; with fewer than two
pieces `encrypted` is `undefined` and `decipher.update` throws. -/
def decryptMessage (C : Aes256Cbc) (encryptedText encryptionKey : String) :
    Except String String :=
  if encryptedText = "" then .ok encryptedText
  else
    match splitOn ':' encryptedText.data with
    | ivHex :: encrypted :: _ =>
      C.decrypt (bufferFromHex encryptionKey.data) (bufferFromHex ivHex) encrypted
    | _ => .error "The \"data\" argument must be of type string"

/-- Unary toy cipher used to exhibit a lawful instance: a character of code
`n` becomes `n` digits `0` followed by a digit `1`. The cipher encodes the
characters that `utf8` carries of the text; key and IV are only checked for
length, as `createCipheriv` does. -/
def unaryEncode : List Char → List Char
  | [] => []
  | c :: cs => List.replicate c.toNat '0' ++ '1' :: unaryEncode cs

/-- Inverse of `unaryEncode`, with the count of zeros read so far. -/
def unaryDecode : Nat → List Char → List Char
  | _, [] => []
  | n, c :: cs => if c = '1' then Char.ofNat n :: unaryDecode 0 cs else unaryDecode (n + 1) cs

/-- The toy cipher. -/
def toyCipher : Aes256Cbc where
  encrypt key iv text :=
    if key.length = 32 ∧ iv.length = 16 then .ok (unaryEncode (usvChars text))
    else .error "Invalid key length"
  decrypt key iv hex :=
    if key.length = 32 ∧ iv.length = 16 then .ok (String.mk (unaryDecode 0 hex))
    else .error "Invalid key length"

/-! ## JavaScript values and `Map` -/

/-- JavaScript truthiness of a value that is a string or `undefined`. -/
def truthy : Option String → Bool
  | some s => s ≠ ""
  | none => false

/-- The test `!x`. -/
def falsy (x : Option String) : Bool := !truthy x

/-- An insertion-ordered `Map` with string keys. Well-formed maps have no
repeated key (`JsMap.WF`); the operations do not require it. -/
abbrev JsMap (β : Type) := List (String × β)

namespace JsMap

variable {β : Type}

/-- No key occurs twice. -/
def WF (m : JsMap β) : Prop := (m.map Prod.fst).Nodup

/-- `m.get(k)`. -/
def get : JsMap β → String → Option β
  | [], _ => none
  | (k', v) :: rest, k => if k' = k then some v else get rest k

/-- `m.has(k)`. -/
def has (m : JsMap β) (k : String) : Bool := (get m k).isSome

/-- `m.set(k, v)`: an existing key keeps its position, a new key goes last. -/
def set : JsMap β → String → β → JsMap β
  | [], k, v => [(k, v)]
  | (k', v') :: rest, k, v => if k' = k then (k, v) :: rest else (k', v') :: set rest k v

/-- `m.delete(k)`. -/
def delete (m : JsMap β) (k : String) : JsMap β := m.filter (fun e => e.1 ≠ k)

/-- Number of entries whose key is `k`. -/
def countKey (m : JsMap β) (k : String) : Nat := (m.filter (fun e => e.1 = k)).length

end JsMap

/-! ## Data model -/

/-- A document of the `AiUser` collection (`AiuserSchema`). -/
structure AiUser where
  userId : String
  hasConsented : Bool
  createdAt : Nat
  email : Option String
deriving DecidableEq, Repr

/-- Modelled from the spec: the `User` model registered by `./user`, which is
not among the sources; the codec reads only its `_id` and `encryptionKey`
("User: identity, consent flag, encryption key, email (optional)"). -/
structure KeyUser where
  id : String
  encryptionKey : Option String
deriving DecidableEq, Repr

/-- A document of the `Message` collection (`messageSchema`). -/
structure Message where
  senderId : String
  receiverId : String
  content : String
  timestamp : Nat
deriving DecidableEq, Repr

/-- A document of the `Group` collection (`groupSchema`). -/
structure Group where
  id : String
  name : String
  hostId : String
  members : List String
  avatar : Option String
  createdAt : Nat
  updatedAt : Nat
  description : String
  isPrivate : Bool
deriving DecidableEq, Repr

/-- Source `groupSchema.methods.isMember`. -/
def Group.isMember (g : Group) (userId : String) : Bool := g.members.contains userId

/-- Source `groupSchema.methods.isHost`. -/
def Group.isHost (g : Group) (userId : String) : Bool := g.hostId = userId

/-- A document of the `GroupMessage` collection (`groupMessageSchema`);
`musicData` is never set by the handlers and is left out. -/
structure GroupMessage where
  groupId : String
  senderId : String
  senderName : Option String
  content : String
  imageUrl : Option String
  timestamp : Nat
deriving DecidableEq, Repr

/-- An event sent to a client. -/
inductive Event where
  | aiMessage (message : Message)
  | groupMessage (groupId : String) (message : GroupMessage)
  | groupTyping (groupId userId : String) (userName : Option String) (isTyping : Bool)
  | error (message : String)
deriving DecidableEq, Repr

/-- A live connection: its id and the rooms it joined with `socket.join`. -/
structure Socket where
  id : String
  rooms : List String
deriving DecidableEq, Repr

/-- What `createUserChain` stores in `memoryMap[userId]`: the input/output
pairs pre-loaded into the buffer memory when the chain was created, and
whether a vector store is attached. -/
structure UserChain where
  preloaded : List (String × String)
  vectorStore : Bool
deriving DecidableEq, Repr

/-- The state of the process and of the collections it uses. `outbox`
lists the events delivered so far as (receiving socket id, event). -/
structure Server where
  aiUsers : List AiUser
  keyUsers : List KeyUser
  messages : List Message
  groups : List Group
  groupMessages : List GroupMessage
  memoryMap : JsMap UserChain
  activeConnections : JsMap String
  typingUsers : JsMap (JsMap (Option String))
  sockets : List Socket
  outbox : List (String × Event)
deriving DecidableEq, Repr

/-- A server with empty collections and no connection. -/
def Server.empty : Server :=
  { aiUsers := [], keyUsers := [], messages := [], groups := [], groupMessages := [],
    memoryMap := [], activeConnections := [], typingUsers := [], sockets := [], outbox := [] }

/-- Body of an HTTP response. -/
inductive Body where
  | error (error : String)
  | errorDetails (error details : String)
  | messages (userMessage aiMessage : Message)
  | reply (reply userId : String)
  | group (group : Group)
  | groupMessage (message : GroupMessage)
  | text (message : String)
deriving DecidableEq, Repr

/-- An HTTP response: `res.status(status).json(body)`. -/
structure Response where
  status : Nat
  body : Body
deriving DecidableEq, Repr

/-! ## Dispatch -/

/-- The name of a group's room, as in the template `group:` followed by the id. -/
def groupRoom (groupId : String) : String := "group:" ++ groupId

/-- Ids of the connected sockets in a room. Every socket is in the room
named by its own id. -/
def socketsIn (sockets : List Socket) (room : String) : List String :=
  (sockets.filter (fun s => s.id = room || s.rooms.contains room)).map (·.id)

/-- Source `io.to(room).emit(event)`. -/
def ioToEmit (st : Server) (room : String) (ev : Event) : Server :=
  { st with outbox := st.outbox ++ (socketsIn st.sockets room).map (fun id => (id, ev)) }

/-- Source `socket.to(room).emit(event)`: the room without the sender. -/
def socketToEmit (st : Server) (socketId room : String) (ev : Event) : Server :=
  { st with outbox := st.outbox ++
      ((socketsIn st.sockets room).filter (fun id => id ≠ socketId)).map (fun id => (id, ev)) }

/-- Source `socket.emit(event)`. -/
def socketEmit (st : Server) (socketId : String) (ev : Event) : Server :=
  { st with outbox := st.outbox ++ [(socketId, ev)] }

/-- Sockets that received a `group:message` event among the deliveries. -/
def groupMessageRecipients (deliveries : List (String × Event)) : List String :=
  deliveries.filterMap (fun d =>
    match d.2 with
    | .groupMessage _ _ => some d.1
    | _ => none)

/-! ## Conversation context (`src/index.js`, direct messages) -/

/-- The `type` of a history entry: the strings `human` and `ai`. -/
inductive Speaker where
  | human
  | ai
deriving DecidableEq, Repr

/-- An element of the array returned by `loadConversationHistory`. -/
structure HistoryEntry where
  type : Speaker
  text : String
deriving DecidableEq, Repr

/-- Insertion into a list sorted by ascending timestamp, before the first
element that is not older. -/
def insertByTimestamp (m : Message) : List Message → List Message
  | [] => [m]
  | x :: xs => if m.timestamp ≤ x.timestamp then m :: x :: xs else x :: insertByTimestamp m xs

/-- The query modifier `.sort(timestamp: 1)`: ascending, stable. -/
def sortByTimestamp : List Message → List Message
  | [] => []
  | m :: ms => insertByTimestamp m (sortByTimestamp ms)

/-- The `$or` filter selecting the messages between a user and the assistant. -/
def betweenUserAndDnya (userId : String) (m : Message) : Bool :=
  (m.senderId = userId && m.receiverId = "dnya") || (m.senderId = "dnya" && m.receiverId = userId)

/-- The history entry the loop of `loadConversationHistory` pushes for a message. -/
def toHistoryEntry (userId : String) (msg : Message) : HistoryEntry :=
  if msg.senderId = userId then { type := .human, text := msg.content }
  else { type := .ai, text := msg.content }

/-- Source `loadConversationHistory(userId)`:
`Message.find(...).sort(timestamp: 1).limit(20)`, then one entry per message.
The query is taken to succeed; the `catch` branch, which returns the empty
array, is not reached. -/
def loadConversationHistory (messages : List Message) (userId : String) : List HistoryEntry :=
  (((messages.filter (betweenUserAndDnya userId)) |> sortByTimestamp).take 20).map
    (toHistoryEntry userId)

/-- The pre-load loop of `createUserChain`: for `i = 0, 2, 4, …` while
`i < length - 1`, save the pair `(pastMessages[i].text, pastMessages[i+1].text)`. -/
def preloadPairs : List HistoryEntry → List (String × String)
  | a :: b :: rest => (a.text, b.text) :: preloadPairs rest
  | _ => []

/-- Outcome of the external constructions of `createUserChain`: whether the
retrieval path (embeddings, index, vector store, model, chain) completes, and
whether the fallback path of its `catch` completes. -/
structure ChainSetup where
  retrieval : Except String Unit
  fallback : Except String Unit

/-- Source `createUserChain(userId)`. -/
def createUserChain (setup : ChainSetup) (st : Server) (userId : String) :
    Except String Server :=
  let memory := preloadPairs (loadConversationHistory st.messages userId)
  match setup.retrieval with
  | .ok _ =>
    .ok { st with memoryMap := st.memoryMap.set userId { preloaded := memory, vectorStore := true } }
  | .error _ =>
    match setup.fallback with
    | .ok _ =>
      .ok { st with
        memoryMap := st.memoryMap.set userId { preloaded := memory, vectorStore := false } }
    | .error e => .error e

/-- The object a chain call resolves to; `response` may be absent. -/
structure ChainValues where
  response : Option String
deriving DecidableEq, Repr

/-- Outcomes of the calls a direct-message request makes outside the process. -/
structure Upstream where
  userTime : Nat
  aiTime : Nat
  saveUserMessage : Except String Unit
  saveAiMessage : Except String Unit
  setup : ChainSetup
  similaritySearch : String → Except String (List String)
  chainCall : String → Except String ChainValues
  modelInvoke : String → Except String String

/-- The text of tier 3. -/
def apologyText : String := "I'm sorry, I couldn't generate a response due to a technical issue."

/-- The text substituted for a missing or empty `result.response`. -/
def defaultText : String := "I'm sorry, I couldn't generate a response."

/-- One step of the generation fallback, recorded in order. -/
inductive GenStep where
  | chainCall (input : String)
  | modelInvoke (content : String)
  | apology
deriving DecidableEq, Repr

/-- Whether a step is a call of the chain (tier 1). -/
def GenStep.isChainCall : GenStep → Bool
  | .chainCall _ => true
  | _ => false

/-- Whether a step is a direct call of the model (tier 2). -/
def GenStep.isModelInvoke : GenStep → Bool
  | .modelInvoke _ => true
  | _ => false

/-- Whether a step is the assignment of the apology (tier 3). -/
def GenStep.isApology : GenStep → Bool
  | .apology => true
  | _ => false

/-- An upstream whose chain call throws and whose direct model call resolves
to `text`; every other call succeeds and retrieval finds nothing. -/
def upstreamDirect (text : String) : Upstream :=
  { userTime := 1, aiTime := 2, saveUserMessage := .ok (), saveAiMessage := .ok (),
    setup := { retrieval := .ok (), fallback := .ok () },
    similaritySearch := fun _ => .ok [],
    chainCall := fun _ => .error "chain unavailable",
    modelInvoke := fun _ => .ok text }

/-- The prompt given to the chain: the raw message, or the message prefixed
by the retrieved context when there is any. -/
def composePrompt (similarDocuments : List String) (content : String) : String :=
  if similarDocuments.length > 0 then
    "Context from past conversations: \n" ++ "\n\n".intercalate similarDocuments ++
      "\n\nBased on this context and our conversation history, please respond to: " ++ content
  else content

/-- The `try`/`catch` ladder that assigns `result`: the value of
`result.response` and the steps taken. -/
def generate (up : Upstream) (similarDocuments : List String) (content : String) :
    Option String × List GenStep :=
  let prompt := composePrompt similarDocuments content
  match up.chainCall prompt with
  | .ok result => (result.response, [.chainCall prompt])
  | .error _ =>
    match up.modelInvoke content with
    | .ok text => (some text, [.chainCall prompt, .modelInvoke content])
    | .error _ => (some apologyText, [.chainCall prompt, .modelInvoke content, .apology])

/-- Source `result.response || "I'm sorry, I couldn't generate a response."`. -/
def orDefault (response : Option String) : String :=
  match response with
  | some r => if r = "" then defaultText else r
  | none => defaultText

/-- The value of `aiResponse` and the steps that produced it. -/
def generateResponse (up : Upstream) (similarDocuments : List String) (content : String) :
    String × List GenStep :=
  let g := generate up similarDocuments content
  (orDefault g.1, g.2)

/-- The retrieval block: `similaritySearch(content, 3)` when the user's chain
has a vector store; a failure leaves the empty list. -/
def retrieveSimilar (up : Upstream) (st : Server) (userId content : String) : List String :=
  match st.memoryMap.get userId with
  | some chain =>
    if chain.vectorStore then
      match up.similaritySearch content with
      | .ok docs => docs
      | .error _ => []
    else []
  | none => []

/-- The body of HTTP status 500 of the two direct-message handlers. -/
def aiFailed (details : String) : Response :=
  { status := 500, body := .errorDetails "AI failed to respond" details }

/-- The part the two direct-message handlers share, from the save of the
user's message to the save of the assistant's: the saved pair and the state,
or the message of the error thrown together with the state reached. The
best-effort `addDocuments` calls change nothing in the process or the
collections. -/
def converse (up : Upstream) (st : Server) (userId content : String) :
    Except (String × Server) (Message × Message × Server) :=
  let userMessage : Message :=
    { senderId := userId, receiverId := "dnya", content := content, timestamp := up.userTime }
  match up.saveUserMessage with
  | .error e => .error (e, st)
  | .ok _ =>
    let st1 := { st with messages := st.messages ++ [userMessage] }
    let created :=
      match st1.memoryMap.get userId with
      | some _ => Except.ok st1
      | none => createUserChain up.setup st1 userId
    match created with
    | .error e => .error (e, st1)
    | .ok st2 =>
      let similarDocuments := retrieveSimilar up st2 userId content
      let aiResponse := (generateResponse up similarDocuments content).1
      let aiMessage : Message :=
        { senderId := "dnya", receiverId := userId, content := aiResponse, timestamp := up.aiTime }
      match up.saveAiMessage with
      | .error e => .error (e, st2)
      | .ok _ => .ok (userMessage, aiMessage, { st2 with messages := st2.messages ++ [aiMessage] })

/-- Source `app.post("/api/messages")`. -/
def postMessages (up : Upstream) (st : Server) (senderId content : Option String) :
    Response × Server :=
  match senderId, content with
  | some sid, some c =>
    if sid = "" || c = "" then
      ({ status := 400, body := .error "Sender ID and content are required" }, st)
    else
      match st.aiUsers.find? (fun u => u.userId = sid) with
      | none => ({ status := 404, body := .error "User not found" }, st)
      | some user =>
        if !user.hasConsented then
          ({ status := 403, body := .error "User has not consented to AI chat" }, st)
        else
          match converse up st sid c with
          | .error (e, st1) => (aiFailed e, st1)
          | .ok (userMessage, aiMessage, st1) =>
            let st2 :=
              match st1.activeConnections.get sid with
              | some socketId =>
                if socketId = "" then st1 else ioToEmit st1 socketId (.aiMessage aiMessage)
              | none => st1
            ({ status := 200, body := .messages userMessage aiMessage }, st2)
  | _, _ => ({ status := 400, body := .error "Sender ID and content are required" }, st)

/-- Source `app.post("/api/generate-response")`, the legacy endpoint. -/
def postGenerateResponse (up : Upstream) (st : Server) (message userId : Option String) :
    Response × Server :=
  match message, userId with
  | some m, some uid =>
    if m = "" || uid = "" then
      ({ status := 400, body := .error "Message and userId are required" }, st)
    else
      match converse up st uid m with
      | .error (e, st1) => (aiFailed e, st1)
      | .ok (_, aiMessage, st1) => ({ status := 200, body := .reply aiMessage.content uid }, st1)
  | _, _ => ({ status := 400, body := .error "Message and userId are required" }, st)

/-! ## Membership gateway (`src/index.js`, group endpoints)

Every `save()` of these handlers takes its outcome as the parameter `save`:
schema validation and the store either accept the document or throw. -/

/-- Source `Group.findById(groupId)`. -/
def findGroup (groups : List Group) (groupId : String) : Option Group :=
  groups.find? (fun g => g.id = groupId)

/-- The effect of `group.save()` on the collection: the document with the
same id is replaced, a new document is added last. -/
def storeGroup : List Group → Group → List Group
  | [], g => [g]
  | x :: xs, g => if x.id = g.id then g :: xs else x :: storeGroup xs g

/-- The members a created group gets: the request's array, with the host
pushed when `members.includes(hostId)` is false. -/
def withHost (members : List String) (hostId : String) : List String :=
  if members.contains hostId then members else members ++ [hostId]

/-- Source `app.post("/api/groups")`. `members` is `none` when the field is
absent or not an array; `newId` is the id the store gives the document. The
schema's `trim` of `name` is not modelled. -/
def postGroups (newId : String) (now : Nat) (save : Except String Unit) (st : Server)
    (name hostId : Option String) (members : Option (List String)) : Response × Server :=
  match name, hostId, members with
  | some n, some h, some ms =>
    if n = "" || h = "" then ({ status := 400, body := .error "Invalid group data" }, st)
    else
      let newGroup : Group :=
        { id := newId, name := n, hostId := h, members := withHost ms h, avatar := none,
          createdAt := now, updatedAt := now, description := "", isPrivate := true }
      match save with
      | .error _ => ({ status := 500, body := .error "Failed to create group" }, st)
      | .ok _ =>
        ({ status := 201, body := .group newGroup }, { st with groups := st.groups ++ [newGroup] })
  | _, _, _ => ({ status := 400, body := .error "Invalid group data" }, st)

/-- Source `app.put("/api/groups/:groupId")`. -/
def putGroup (now : Nat) (save : Except String Unit) (st : Server) (groupId : String)
    (name : Option String) (members : Option (List String)) (avatar : Option String) :
    Response × Server :=
  match findGroup st.groups groupId with
  | none => ({ status := 404, body := .error "Group not found" }, st)
  | some group =>
    let g1 := if truthy name then { group with name := name.getD "" } else group
    let g2 :=
      match members with
      | some ms => { g1 with members := ms }
      | none => g1
    let g3 := if truthy avatar then { g2 with avatar := avatar } else g2
    let g4 := { g3 with updatedAt := now }
    match save with
    | .error _ => ({ status := 500, body := .error "Failed to update group" }, st)
    | .ok _ => ({ status := 200, body := .group g4 }, { st with groups := storeGroup st.groups g4 })

/-- Source `app.delete("/api/groups/:groupId")`; `userId` is `none` when the
body has no such field. -/
def deleteGroup (st : Server) (groupId : String) (userId : Option String) : Response × Server :=
  match findGroup st.groups groupId with
  | none => ({ status := 404, body := .error "Group not found" }, st)
  | some group =>
    if some group.hostId ≠ userId then
      ({ status := 403, body := .error "Only the host can delete the group" }, st)
    else
      ({ status := 200, body := .text "Group deleted successfully" },
        { st with
          groups := st.groups.filter (fun g => g.id ≠ groupId)
          groupMessages := st.groupMessages.filter (fun m => m.groupId ≠ groupId) })

/-- Source `app.post("/api/groups/:groupId/members")`. -/
def addMember (now : Nat) (save : Except String Unit) (st : Server) (groupId : String)
    (userId newMemberId : String) : Response × Server :=
  match findGroup st.groups groupId with
  | none => ({ status := 404, body := .error "Group not found" }, st)
  | some group =>
    if group.hostId ≠ userId then
      ({ status := 403, body := .error "Only the host can add members" }, st)
    else if group.members.contains newMemberId then
      ({ status := 400, body := .error "User is already a member of this group" }, st)
    else
      let g := { group with members := group.members ++ [newMemberId], updatedAt := now }
      match save with
      | .error _ => ({ status := 500, body := .error "Failed to add member" }, st)
      | .ok _ => ({ status := 200, body := .group g }, { st with groups := storeGroup st.groups g })

/-- Source `app.delete("/api/groups/:groupId/members/:memberId")`. -/
def removeMember (now : Nat) (save : Except String Unit) (st : Server) (groupId : String)
    (memberId userId : String) : Response × Server :=
  match findGroup st.groups groupId with
  | none => ({ status := 404, body := .error "Group not found" }, st)
  | some group =>
    if group.hostId ≠ userId && userId ≠ memberId then
      ({ status := 403, body := .error "Not authorized to remove this member" }, st)
    else if memberId = group.hostId then
      ({ status := 400, body := .error "Cannot remove the host from the group" }, st)
    else
      let g :=
        { group with members := group.members.filter (fun id => id ≠ memberId), updatedAt := now }
      match save with
      | .error _ => ({ status := 500, body := .error "Failed to remove member" }, st)
      | .ok _ => ({ status := 200, body := .group g }, { st with groups := storeGroup st.groups g })

/-- A call of one of the two member endpoints on a group. -/
inductive MemberOp where
  | add (now : Nat) (save : Except String Unit) (userId newMemberId : String)
  | remove (now : Nat) (save : Except String Unit) (memberId userId : String)

/-- Runs one member operation on the group `groupId`. -/
def MemberOp.run (st : Server) (groupId : String) : MemberOp → Response × Server
  | .add now save userId newMemberId => addMember now save st groupId userId newMemberId
  | .remove now save memberId userId => removeMember now save st groupId memberId userId

/-- Runs a sequence of member operations on the group `groupId`, in order. -/
def runMemberOps (st : Server) (groupId : String) : List MemberOp → Server
  | [] => st
  | op :: ops => runMemberOps (op.run st groupId).2 groupId ops

/-- The invariant of the data model for one group: the host is a member. -/
def Group.hostIsMember (g : Group) : Prop := g.hostId ∈ g.members

instance (g : Group) : Decidable g.hostIsMember := by
  unfold Group.hostIsMember
  infer_instance

/-- The group `groupId` exists and its host is among its members. -/
def hostInMembers (st : Server) (groupId : String) : Prop :=
  ∃ g, findGroup st.groups groupId = some g ∧ g.hostIsMember

/-- A group whose only member is its host `u1`. -/
def tripGroup : Group :=
  { id := "g1", name := "Trip", hostId := "u1", members := ["u1"], avatar := none,
    createdAt := 0, updatedAt := 0, description := "", isPrivate := true }

/-- A server whose only document is `tripGroup`. -/
def tripServer : Server := { Server.empty with groups := [tripGroup] }

/-! ## Stored group messages (`src/models/GroupMessage.js`, hooks) -/

/-- Source `mongoose.model('User').findById(message.senderId)`. -/
def findSender (keyUsers : List KeyUser) (senderId : String) : Option KeyUser :=
  keyUsers.find? (fun u => u.id = senderId)

/-- Source `groupMessageSchema.pre('save')`: the document to store, or the
error handed to `next`. -/
def preSave (C : Aes256Cbc) (iv : List Byte) (keyUsers : List KeyUser) (message : GroupMessage) :
    Except String GroupMessage :=
  if message.content = "" && falsy message.imageUrl then
    .error "Either content or imageUrl is required."
  else
    match findSender keyUsers message.senderId with
    | none => .error "Sender or encryption key not found."
    | some sender =>
      if falsy sender.encryptionKey then .error "Sender or encryption key not found."
      else if message.content ≠ "" then
        match encryptMessage C iv (utf16 message.content) (sender.encryptionKey.getD "") with
        | .ok encrypted => .ok { message with content := encrypted }
        | .error e => .error e
      else .ok message

/-- Source `groupMessageSchema.methods.decryptContent`. -/
def decryptContent (C : Aes256Cbc) (keyUsers : List KeyUser) (message : GroupMessage) :
    GroupMessage :=
  match findSender keyUsers message.senderId with
  | none => message
  | some sender =>
    if falsy sender.encryptionKey then message
    else if message.content ≠ "" then
      match decryptMessage C message.content (sender.encryptionKey.getD "") with
      | .ok decryptedContent => { message with content := decryptedContent }
      | .error _ => message
    else { message with content := "" }

/-! ## Group messages and live events (`src/index.js`) -/

/-- What a send of a group message needs from outside the process: the
cipher, the IV drawn, the clock, and whether validation and the store accept
the document. -/
structure SendEnv where
  cipher : Aes256Cbc
  iv : List Byte
  now : Nat
  save : Except String Unit

/-- The call `newMessage.save()` of the two send paths: validation and the
store, and the pre-save hook. -/
def saveGroupMessage (env : SendEnv) (st : Server) (groupId senderId : String)
    (senderName content imageUrl : Option String) : Except String GroupMessage :=
  match env.save with
  | .error e => .error e
  | .ok _ =>
    preSave env.cipher env.iv st.keyUsers
      { groupId := groupId, senderId := senderId, senderName := senderName,
        content := content.getD "", imageUrl := imageUrl, timestamp := env.now }

/-- The `forEach` of the HTTP send: one emit per member that has a truthy
entry in `activeConnections`. -/
def emitToMembers (st : Server) (members : List String) (ev : Event) : Server :=
  members.foldl
    (fun acc memberId =>
      match acc.activeConnections.get memberId with
      | some socketId => if socketId = "" then acc else ioToEmit acc socketId ev
      | none => acc)
    st

/-- Source `app.post("/api/groups/:groupId/messages")`. -/
def postGroupMessage (env : SendEnv) (st : Server) (groupId senderId : String)
    (senderName content imageUrl : Option String) : Response × Server :=
  match findGroup st.groups groupId with
  | none => ({ status := 404, body := .error "Group not found" }, st)
  | some group =>
    if !group.members.contains senderId then
      ({ status := 403, body := .error "Not a member of this group" }, st)
    else
      match saveGroupMessage env st groupId senderId senderName content imageUrl with
      | .error _ => ({ status := 500, body := .error "Failed to send message" }, st)
      | .ok newMessage =>
        let st1 := { st with groupMessages := st.groupMessages ++ [newMessage] }
        let message := decryptContent env.cipher st1.keyUsers newMessage
        ({ status := 201, body := .groupMessage message },
          emitToMembers st1 group.members (.groupMessage groupId message))

/-- Source `io.on("connection")`: a new live connection with no room joined. -/
def onConnection (st : Server) (socketId : String) : Server :=
  { st with sockets := st.sockets ++ [{ id := socketId, rooms := [] }] }

/-- Source `socket.on("user:connect")`. -/
def onUserConnect (st : Server) (socketId userId : String) : Server :=
  { st with activeConnections := st.activeConnections.set userId socketId }

/-- Source `socket.join(room)`. -/
def socketJoin (st : Server) (socketId room : String) : Server :=
  { st with
    sockets := st.sockets.map (fun s =>
      if s.id = socketId && !s.rooms.contains room then { s with rooms := s.rooms ++ [room] }
      else s) }

/-- Source `socket.on("group:join")`: the second `join` is guarded by
`socket.rooms.has` and the handler checks no membership. -/
def onGroupJoin (st : Server) (socketId groupId : String) : Server :=
  socketJoin st socketId (groupRoom groupId)

/-- Source `socket.on("group:leave")`. -/
def onGroupLeave (st : Server) (socketId groupId : String) : Server :=
  { st with
    sockets := st.sockets.map (fun s =>
      if s.id = socketId then { s with rooms := s.rooms.filter (fun r => r ≠ groupRoom groupId) }
      else s) }

/-- Source `socket.on("group:typing")`: the group's map is created when
missing, the user's entry is set or deleted, and the status goes to the
group's room except the sender. -/
def onGroupTyping (st : Server) (socketId groupId userId : String) (userName : Option String)
    (isTyping : Bool) : Server :=
  let typingUsers :=
    if st.typingUsers.has groupId then st.typingUsers else st.typingUsers.set groupId []
  let groupTypingUsers := (typingUsers.get groupId).getD []
  let updated :=
    if isTyping then groupTypingUsers.set userId userName else groupTypingUsers.delete userId
  socketToEmit { st with typingUsers := typingUsers.set groupId updated } socketId
    (groupRoom groupId) (.groupTyping groupId userId userName isTyping)

/-- Source `socket.on("group:sendMessage")`. -/
def onGroupSendMessage (env : SendEnv) (st : Server) (socketId groupId senderId : String)
    (senderName content imageUrl : Option String) : Server :=
  match findGroup st.groups groupId with
  | none => socketEmit st socketId (.error "Group not found")
  | some group =>
    if !group.members.contains senderId then
      socketEmit st socketId (.error "Not a member of this group")
    else
      match saveGroupMessage env st groupId senderId senderName content imageUrl with
      | .error _ => socketEmit st socketId (.error "Failed to send message")
      | .ok newMessage =>
        let st1 := { st with groupMessages := st.groupMessages ++ [newMessage] }
        let st2 :=
          match st1.typingUsers.get groupId with
          | some groupTypingUsers =>
            ioToEmit
              { st1 with
                typingUsers := st1.typingUsers.set groupId (groupTypingUsers.delete senderId) }
              (groupRoom groupId) (.groupTyping groupId senderId senderName false)
          | none => st1
        let message := decryptContent env.cipher st2.keyUsers newMessage
        ioToEmit st2 (groupRoom groupId) (.groupMessage groupId message)

/-- The inner loop of the disconnect handler: in every group where the user
has a typing entry, delete it and tell the group's room. -/
def clearTyping (st : Server) (userId : String) : Server :=
  st.typingUsers.foldl
    (fun acc entry =>
      if entry.2.has userId then
        ioToEmit
          { acc with typingUsers := acc.typingUsers.set entry.1 (entry.2.delete userId) }
          (groupRoom entry.1) (.groupTyping entry.1 userId ((entry.2.get userId).getD none) false)
      else acc)
    st

/-- The first user, in the order of `activeConnections.entries()`, whose
entry holds the socket id. -/
def firstBoundUser (activeConnections : JsMap String) (socketId : String) : Option String :=
  (activeConnections.find? (fun e => e.2 = socketId)).map (·.1)

/-- Source `socket.on("disconnect")`. The socket is no longer connected when
the handler runs; the loop stops at the first entry bound to it. -/
def onDisconnect (st : Server) (socketId : String) : Server :=
  let st1 := { st with sockets := st.sockets.filter (fun s => s.id ≠ socketId) }
  match firstBoundUser st1.activeConnections socketId with
  | some userId =>
    clearTyping { st1 with activeConnections := st1.activeConnections.delete userId } userId
  | none => st1

/-- A server that knows the user `u1`, who has not consented. -/
def unconsentedServer : Server :=
  { Server.empty with
    aiUsers := [{ userId := "u1", hasConsented := false, createdAt := 0, email := none }] }

/-- The connections the presence registry holds for the members of a group. -/
def registeredMemberConnections (st : Server) (group : Group) : List String :=
  group.members.filterMap (fun memberId => st.activeConnections.get memberId)

/-- A send environment with the toy cipher and the all-zero IV. -/
def toyEnv : SendEnv :=
  { cipher := toyCipher, iv := List.replicate 16 0, now := 7, save := .ok () }

/-- The group `g1` of host `u1`, who holds a key and is registered on the
connection `s1` without having joined the group's room, while the connection
`s2`, registered for nobody, has joined that room. -/
def eavesdropServer : Server :=
  onGroupJoin
    (onConnection
      (onUserConnect
        (onConnection
          { tripServer with
            keyUsers := [{ id := "u1", encryptionKey := some (String.mk (List.replicate 64 '0')) }] }
          "s1")
        "s1" "u1")
      "s2")
    "s2" "g1"

/-- The `i`-th turn of a conversation of `u1` with the assistant, sent at
time `100 + i`: `u1` speaks on even turns. -/
def turn (i : Nat) : Message :=
  if i % 2 = 0 then
    { senderId := "u1", receiverId := "dnya", content := String.mk (List.replicate i 'q'),
      timestamp := 100 + i }
  else
    { senderId := "dnya", receiverId := "u1", content := String.mk (List.replicate i 'a'),
      timestamp := 100 + i }

/-- Twenty-one persisted turns, oldest first. -/
def twentyOneTurns : List Message := (List.range 21).map turn

/-- Two users registered from the same connection `s1`. -/
def sharedSocketServer : Server :=
  onUserConnect (onUserConnect (onConnection Server.empty "s1") "s1" "u1") "s1" "u2"

/-- The typing entry of a user in a group: the stored display name, if the
tracker has the group and the group's map has the user. -/
def typingEntry (typingUsers : JsMap (JsMap (Option String))) (groupId userId : String) :
    Option (Option String) :=
  match typingUsers.get groupId with
  | some groupTypingUsers => groupTypingUsers.get userId
  | none => none

/-- The typing set of a group: the entries of its map, empty when the
tracker does not have the group. -/
def typingSet (typingUsers : JsMap (JsMap (Option String))) (groupId : String) :
    JsMap (Option String) :=
  (typingUsers.get groupId).getD []

/-- The server `eavesdropServer` after `u1` announced from `s1` that it is
typing in `g1`. -/
def typingServer : Server := onGroupTyping eavesdropServer "s1" "g1" "u1" (some "Ann") true

/-- The sender's user record or its `encryptionKey` is missing: the test
`!sender || !sender.encryptionKey` of the hook and of `decryptContent`. -/
def keyMissing (keyUsers : List KeyUser) (senderId : String) : Bool :=
  match findSender keyUsers senderId with
  | none => true
  | some sender => falsy sender.encryptionKey

/-- A stored message of `u1` in `g1` whose content is not a cipher record. -/
def plainMessage : GroupMessage :=
  { groupId := "g1", senderId := "u1", senderName := some "Ann", content := "hi",
    imageUrl := none, timestamp := 7 }

/-- A history alternates by position: human turns at even positions, turns
of the assistant at odd positions. -/
def alternates : List HistoryEntry → Bool
  | [] => true
  | [a] => a.type = .human
  | a :: b :: rest => a.type = .human && b.type = .ai && alternates rest

/-- A server that knows the user `u1`, who has consented. -/
def consentedServer : Server :=
  { Server.empty with
    aiUsers := [{ userId := "u1", hasConsented := true, createdAt := 0, email := none }] }

/-- An upstream sending at times 1 and 2, for which no chain can be built:
both constructions of `createUserChain` throw. -/
def upstreamNoChain : Upstream :=
  { upstreamDirect "Hello!" with
    setup := { retrieval := .error "index unavailable", fallback := .error "model unavailable" } }

/-- The upstream `upstreamDirect` sending at times 3 and 4. -/
def upstreamLater : Upstream := { upstreamDirect "Hello!" with userTime := 3, aiTime := 4 }

/-- The state after `u1` sent `hi` while no chain could be built: the
request failed after the user's message was saved. -/
def unansweredServer : Server :=
  (postMessages upstreamNoChain consentedServer (some "u1") (some "hi")).2

/-! ## Theorems -/

theorem hexVal_hexDigit (n : Nat) (h : n < 16) : hexVal (hexDigit n) = some n := by
  interval_cases n <;> decide

theorem hexDigit_ne_colon (n : Nat) : hexDigit n ≠ ':' := by
  unfold hexDigit
  split <;> decide

theorem bufferFromHex_toHex (bs : List Byte) : bufferFromHex (toHex bs) = bs := by
  induction bs with
  | nil => rfl
  | cons b bs ih =>
    have h1 : b.val / 16 < 16 := by omega
    have h2 : b.val % 16 < 16 := by omega
    simp only [toHex, bufferFromHex, hexVal_hexDigit _ h1, hexVal_hexDigit _ h2, ih]
    congr 1
    apply Fin.ext
    simp [Fin.ofNat]
    omega

theorem colon_not_mem_toHex (bs : List Byte) : ':' ∉ toHex bs := by
  induction bs with
  | nil => simp [toHex]
  | cons b bs ih =>
    simp only [toHex, List.mem_cons, not_or]
    exact ⟨fun h => hexDigit_ne_colon _ h.symm, fun h => hexDigit_ne_colon _ h.symm, ih⟩

theorem splitOn_of_not_mem (sep : Char) (l : List Char) (h : sep ∉ l) :
    splitOn sep l = [l] := by
  induction l with
  | nil => rfl
  | cons c cs ih =>
    simp only [List.mem_cons, not_or] at h
    have hc : c ≠ sep := fun e => h.1 e.symm
    simp [splitOn, hc, ih h.2]

theorem splitOn_append (sep : Char) (a b : List Char) (h : sep ∉ a) :
    splitOn sep (a ++ sep :: b) = a :: splitOn sep b := by
  induction a with
  | nil => simp [splitOn]
  | cons c cs ih =>
    simp only [List.mem_cons, not_or] at h
    have hc : c ≠ sep := fun e => h.1 e.symm
    simp [splitOn, hc, ih h.2]

theorem colon_not_hex (ct : List Char) (h : ∀ c ∈ ct, isHexChar c = true) : ':' ∉ ct := by
  intro hm
  have := h _ hm
  revert this
  decide

theorem unaryDecode_encode (n k : Nat) (rest : List Char) :
    unaryDecode n (List.replicate k '0' ++ '1' :: rest) =
      Char.ofNat (n + k) :: unaryDecode 0 rest := by
  induction k generalizing n with
  | zero => simp [unaryDecode]
  | succ k ih =>
    have h0 : ('0' : Char) ≠ '1' := by decide
    simp only [List.replicate_succ, List.cons_append, unaryDecode, h0, if_false]
    have e := ih (n + 1)
    rw [show n + 1 + k = n + (k + 1) by omega] at e
    exact e

theorem unaryDecode_unaryEncode (l : List Char) : unaryDecode 0 (unaryEncode l) = l := by
  induction l with
  | nil => rfl
  | cons c cs ih =>
    simp only [unaryEncode]
    rw [unaryDecode_encode 0, ih]
    simp

theorem unaryEncode_hex (l : List Char) : ∀ c ∈ unaryEncode l, isHexChar c = true := by
  induction l with
  | nil => simp [unaryEncode]
  | cons a as ih =>
    intro c hc
    simp only [unaryEncode, List.mem_append, List.mem_cons] at hc
    rcases hc with hc | hc | hc
    · rw [List.eq_of_mem_replicate hc]; decide
    · rw [hc]; decide
    · exact ih c hc

theorem char_range (c : Char) :
    c.toNat < 0xD800 ∨ (0xDFFF < c.toNat ∧ c.toNat < 0x110000) := c.valid

theorem usvChars_cons_of_not_high (u : CodeUnit) (rest : JsString)
    (h : isHighSurrogate u = false) : usvChars (u :: rest) = scalarOf u :: usvChars rest := by
  cases rest with
  | nil => simp [usvChars]
  | cons v rest => simp [usvChars, h]

theorem usvChars_utf16Units (c : Char) (rest : JsString) :
    usvChars (utf16Units c ++ rest) = c :: usvChars rest := by
  have hr := char_range c
  unfold utf16Units
  by_cases hb : c.toNat < 0x10000
  · rw [if_pos hb]
    have hv : (Fin.ofNat c.toNat : CodeUnit).val = c.toNat := by
      simp [Fin.ofNat]; omega
    have hh : isHighSurrogate (Fin.ofNat c.toNat : CodeUnit) = false := by
      simp only [isHighSurrogate, hv]
      rcases hr with h | h
      · simp; omega
      · simp; omega
    have hl : isLowSurrogate (Fin.ofNat c.toNat : CodeUnit) = false := by
      simp only [isLowSurrogate, hv]
      rcases hr with h | h
      · simp; omega
      · simp; omega
    rw [List.singleton_append, usvChars_cons_of_not_high _ _ hh]
    simp [scalarOf, hh, hl, hv, Char.ofNat_toNat]
  · rw [if_neg hb]
    have h1 : (Fin.ofNat (0xD800 + (c.toNat - 0x10000) / 0x400) : CodeUnit).val =
        0xD800 + (c.toNat - 0x10000) / 0x400 := by
      simp [Fin.ofNat]; omega
    have h2 : (Fin.ofNat (0xDC00 + (c.toNat - 0x10000) % 0x400) : CodeUnit).val =
        0xDC00 + (c.toNat - 0x10000) % 0x400 := by
      simp [Fin.ofNat]; omega
    have hh : isHighSurrogate (Fin.ofNat (0xD800 + (c.toNat - 0x10000) / 0x400) : CodeUnit) =
        true := by
      simp only [isHighSurrogate, h1]
      simp; omega
    have hl : isLowSurrogate (Fin.ofNat (0xDC00 + (c.toNat - 0x10000) % 0x400) : CodeUnit) =
        true := by
      simp only [isLowSurrogate, h2]
      simp; omega
    show usvChars (_ :: _ :: rest) = _
    simp only [usvChars, hh, hl, Bool.and_self, if_true, h1, h2]
    have : 0x10000 + (0xD800 + (c.toNat - 0x10000) / 0x400 - 0xD800) * 0x400 +
        (0xDC00 + (c.toNat - 0x10000) % 0x400 - 0xDC00) = c.toNat := by omega
    rw [this, Char.ofNat_toNat]

theorem usvChars_utf16Chars (cs : List Char) : usvChars (utf16Chars cs) = cs := by
  induction cs with
  | nil => rfl
  | cons c cs ih => rw [utf16Chars, usvChars_utf16Units, ih]

theorem toWellFormed_utf16 (s : String) : toWellFormed (utf16 s) = s := by
  simp [toWellFormed, utf16, usvChars_utf16Chars]

theorem toyCipher_lawful : toyCipher.Lawful := by
  intro key iv text hk hi
  refine ⟨unaryEncode (usvChars text), ?_, unaryEncode_hex _, ?_⟩
  · simp [toyCipher, hk, hi]
  · simp [toyCipher, hk, hi, unaryDecode_unaryEncode, toWellFormed]

theorem encryptMessageDraw_of_ne (C : Aes256Cbc) (iv : List Byte) (m : JsString) (k : String)
    (hm : m ≠ []) : encryptMessageDraw C iv m k = (some iv, encryptMessage C iv m k) := by
  simp [encryptMessage, encryptMessageDraw, hm]

theorem decrypt_encrypt_wellFormed (C : Aes256Cbc) (hC : C.Lawful) (iv : List Byte)
    (m : JsString) (k : String) (hk : (bufferFromHex k.data).length = 32)
    (hiv : iv.length = 16) :
    ∃ r, encryptMessage C iv m k = .ok r ∧ decryptMessage C r k = .ok (toWellFormed m) := by
  by_cases hm : m = []
  · subst hm
    exact ⟨"", by simp [encryptMessage, encryptMessageDraw],
      by simp [decryptMessage, toWellFormed, usvChars]⟩
  · obtain ⟨ct, he, hhex, hd⟩ := hC (bufferFromHex k.data) iv m hk hiv
    refine ⟨String.mk (toHex iv ++ ':' :: ct),
      by simp [encryptMessage, encryptMessageDraw, hm, he], ?_⟩
    have hne : String.mk (toHex iv ++ ':' :: ct) ≠ "" := by
      intro h
      have := congrArg String.data h
      simp at this
    simp only [decryptMessage, hne, if_false]
    rw [splitOn_append _ _ _ (colon_not_mem_toHex iv),
      splitOn_of_not_mem _ _ (colon_not_hex ct hhex)]
    simp only [bufferFromHex_toHex]
    exact hd

/-- C1 (as stated, refuted): the plaintext made of the single unpaired
surrogate `D800` is encrypted, and decrypting the record under the same key
gives the string made of U+FFFD, whose code units are not those of the
plaintext. -/
theorem lone_surrogate_not_restored :
    ∃ r,
      encryptMessage toyCipher (List.replicate 16 0) [0xD800]
          (String.mk (List.replicate 64 '0')) = .ok r ∧
        decryptMessage toyCipher r (String.mk (List.replicate 64 '0')) =
          .ok (String.mk [replacementChar]) ∧
        utf16 (String.mk [replacementChar]) ≠ [0xD800] := by
  obtain ⟨r, he, hd⟩ := decrypt_encrypt_wellFormed toyCipher toyCipher_lawful
    (List.replicate 16 0) [0xD800] (String.mk (List.replicate 64 '0')) (by decide) (by decide)
  have hw : toWellFormed [0xD800] = String.mk [replacementChar] := by decide
  rw [hw] at hd
  exact ⟨r, he, hd, by decide⟩

/-- C1 (amended): with a lawful cipher, a key that is the hex encoding of 32
bytes and any 16-byte IV, `encryptMessage` succeeds on every plaintext and
`decryptMessage` of its result under the same key is the plaintext with every
unpaired surrogate replaced by U+FFFD; in particular it is the plaintext
itself whenever the plaintext is well-formed (the code units of a string
`s`). Both helpers return the empty string unchanged. -/
theorem decrypt_encrypt_roundtrip (C : Aes256Cbc) (hC : C.Lawful) (iv : List Byte)
    (m : JsString) (k : String) (hk : (bufferFromHex k.data).length = 32)
    (hiv : iv.length = 16) :
    (∃ r, encryptMessage C iv m k = .ok r ∧ decryptMessage C r k = .ok (toWellFormed m)) ∧
      (∀ s, m = utf16 s → ∃ r, encryptMessage C iv m k = .ok r ∧ decryptMessage C r k = .ok s) ∧
      encryptMessage C iv [] k = .ok "" ∧ decryptMessage C "" k = .ok "" := by
  refine ⟨decrypt_encrypt_wellFormed C hC iv m k hk hiv, ?_,
    by simp [encryptMessage, encryptMessageDraw], by simp [decryptMessage]⟩
  intro s hs
  obtain ⟨r, he, hd⟩ := decrypt_encrypt_wellFormed C hC iv m k hk hiv
  refine ⟨r, he, ?_⟩
  rw [hd, hs, toWellFormed_utf16]

/-- Witness of C1 (amended): the toy cipher, the key `00…00` (64 hex
digits), the all-zero IV and the plaintext `hi`. -/
theorem decrypt_encrypt_roundtrip_witness :
    ∃ r, encryptMessage toyCipher (List.replicate 16 0) (utf16 "hi")
          (String.mk (List.replicate 64 '0')) = .ok r ∧
        decryptMessage toyCipher r (String.mk (List.replicate 64 '0')) = .ok "hi" :=
  (decrypt_encrypt_roundtrip toyCipher toyCipher_lawful (List.replicate 16 0) (utf16 "hi")
    (String.mk (List.replicate 64 '0')) (by decide) (by decide)).2.1 "hi" rfl

/-- C2 (as stated, refuted): tier 1 throws, the tier-2 direct model call
succeeds with the empty text, and the response is not that text but the
default sentence. -/
theorem generateResponse_empty_direct_text :
    (upstreamDirect "").chainCall (composePrompt [] "hello") = .error "chain unavailable" ∧
      (upstreamDirect "").modelInvoke "hello" = .ok "" ∧
      (generateResponse (upstreamDirect "") [] "hello").1 =
        "I'm sorry, I couldn't generate a response." ∧
      (generateResponse (upstreamDirect "") [] "hello").1 ≠ "" := by
  refine ⟨rfl, rfl, ?_, ?_⟩ <;> decide

/-- C2 (amended): for every outcome of the two generation calls, (1) when the
chain call succeeds it is the only step taken: the model is not invoked and
the apology is not assigned; (2) when the chain call throws and the direct
model call on the raw message succeeds with text `t`, the response is `t` if
`t` is non-empty and the default sentence otherwise; (3) when both throw, the
response is the fixed apology; (4) the chain is called exactly once and the
model at most once. -/
theorem generateResponse_fallback (up : Upstream) (similarDocuments : List String)
    (content : String) :
    (∀ v, up.chainCall (composePrompt similarDocuments content) = .ok v →
        (generateResponse up similarDocuments content).2 =
          [.chainCall (composePrompt similarDocuments content)]) ∧
      (∀ e t, up.chainCall (composePrompt similarDocuments content) = .error e →
        up.modelInvoke content = .ok t →
        (generateResponse up similarDocuments content).1 = (if t = "" then defaultText else t) ∧
          (generateResponse up similarDocuments content).2 =
            [.chainCall (composePrompt similarDocuments content), .modelInvoke content]) ∧
      (∀ e e', up.chainCall (composePrompt similarDocuments content) = .error e →
        up.modelInvoke content = .error e' →
        (generateResponse up similarDocuments content).1 = apologyText) ∧
      ((generateResponse up similarDocuments content).2.filter GenStep.isChainCall).length = 1 ∧
      ((generateResponse up similarDocuments content).2.filter GenStep.isModelInvoke).length ≤ 1 := by
  refine ⟨?_, ?_, ?_, ?_, ?_⟩
  · intro v hv
    simp [generateResponse, generate, hv]
  · intro e t he ht
    simp [generateResponse, generate, he, ht, orDefault]
  · intro e e' he he'
    simp [generateResponse, generate, he, he', orDefault, apologyText]
  · simp only [generateResponse, generate]
    cases up.chainCall (composePrompt similarDocuments content) with
    | ok v => simp [GenStep.isChainCall]
    | error e =>
      cases up.modelInvoke content with
      | ok t => simp [GenStep.isChainCall]
      | error e' => simp [GenStep.isChainCall]
  · simp only [generateResponse, generate]
    cases up.chainCall (composePrompt similarDocuments content) with
    | ok v => simp [GenStep.isModelInvoke]
    | error e =>
      cases up.modelInvoke content with
      | ok t => simp [GenStep.isModelInvoke]
      | error e' => simp [GenStep.isModelInvoke]

/-- Witness of C2 (amended): the chain throws and the model answers `Hello!`. -/
theorem generateResponse_fallback_witness :
    (generateResponse (upstreamDirect "Hello!") [] "hello").1 = "Hello!" ∧
      (generateResponse (upstreamDirect "Hello!") [] "hello").2 =
        [.chainCall (composePrompt [] "hello"), .modelInvoke "hello"] := by
  have h := (generateResponse_fallback (upstreamDirect "Hello!") [] "hello").2.1
    "chain unavailable" "Hello!" rfl rfl
  simpa using h

theorem findGroup_id {groups : List Group} {groupId : String} {g : Group}
    (h : findGroup groups groupId = some g) : g.id = groupId := by
  have := List.find?_some h
  simpa using this

theorem findGroup_storeGroup (groups : List Group) (g : Group) :
    findGroup (storeGroup groups g) g.id = some g := by
  induction groups with
  | nil => simp [storeGroup, findGroup]
  | cons x xs ih =>
    unfold storeGroup
    by_cases hx : x.id = g.id
    · simp [hx, findGroup]
    · simp only [hx, if_false]
      unfold findGroup at ih ⊢
      rw [List.find?_cons_of_neg _ (by simpa using hx)]
      exact ih

theorem findGroup_append_new (groups : List Group) (g : Group)
    (h : findGroup groups g.id = none) : findGroup (groups ++ [g]) g.id = some g := by
  unfold findGroup at h ⊢
  rw [List.find?_append, h]
  simp

theorem addMember_hostInMembers (now : Nat) (save : Except String Unit) (st : Server)
    (groupId userId newMemberId : String) (h : hostInMembers st groupId) :
    hostInMembers (addMember now save st groupId userId newMemberId).2 groupId := by
  obtain ⟨g, hg, hm⟩ := h
  have hid := findGroup_id hg
  unfold addMember
  rw [hg]
  dsimp only
  split
  · exact ⟨g, hg, hm⟩
  · split
    · exact ⟨g, hg, hm⟩
    · cases save with
      | error e => exact ⟨g, hg, hm⟩
      | ok u =>
        refine ⟨{ g with members := g.members ++ [newMemberId], updatedAt := now }, ?_, ?_⟩
        · have := findGroup_storeGroup st.groups
            { g with members := g.members ++ [newMemberId], updatedAt := now }
          rw [← hid]
          exact this
        · exact List.mem_append_left _ hm

theorem removeMember_hostInMembers (now : Nat) (save : Except String Unit) (st : Server)
    (groupId memberId userId : String) (h : hostInMembers st groupId) :
    hostInMembers (removeMember now save st groupId memberId userId).2 groupId := by
  obtain ⟨g, hg, hm⟩ := h
  have hid := findGroup_id hg
  unfold removeMember
  rw [hg]
  dsimp only
  split
  · exact ⟨g, hg, hm⟩
  · split
    · exact ⟨g, hg, hm⟩
    · rename_i hne
      cases save with
      | error e => exact ⟨g, hg, hm⟩
      | ok u =>
        refine ⟨{ g with members := g.members.filter (fun id => id ≠ memberId),
                         updatedAt := now }, ?_, ?_⟩
        · have := findGroup_storeGroup st.groups
            { g with members := g.members.filter (fun id => id ≠ memberId), updatedAt := now }
          rw [← hid]
          exact this
        · show g.hostId ∈ g.members.filter (fun id => id ≠ memberId)
          rw [List.mem_filter]
          refine ⟨hm, ?_⟩
          have : g.hostId ≠ memberId := fun e => hne e.symm
          simpa using this

theorem runMemberOps_hostInMembers (groupId : String) (ops : List MemberOp) (st : Server)
    (h : hostInMembers st groupId) : hostInMembers (runMemberOps st groupId ops) groupId := by
  induction ops generalizing st with
  | nil => exact h
  | cons op ops ih =>
    unfold runMemberOps
    apply ih
    cases op with
    | add now save userId newMemberId => exact addMember_hostInMembers now save st groupId _ _ h
    | remove now save memberId userId => exact removeMember_hostInMembers now save st groupId _ _ h

theorem mem_withHost (members : List String) (hostId : String) :
    hostId ∈ withHost members hostId := by
  unfold withHost
  split
  · rename_i h
    simpa using h
  · simp

theorem postGroups_hostInMembers (newId : String) (now : Nat) (save : Except String Unit)
    (st : Server) (name hostId : Option String) (members : Option (List String))
    (hfresh : findGroup st.groups newId = none)
    (hok : (postGroups newId now save st name hostId members).1.status = 201) :
    hostInMembers (postGroups newId now save st name hostId members).2 newId := by
  unfold postGroups at hok ⊢
  split at hok
  · rename_i n h ms
    dsimp only at hok ⊢
    split at hok
    · simp at hok
    · rename_i hne
      rw [if_neg hne]
      cases save with
      | error e => simp at hok
      | ok u =>
        refine ⟨_, findGroup_append_new st.groups
          { id := newId, name := n, hostId := h, members := withHost ms h, avatar := none,
            createdAt := now, updatedAt := now, description := "", isPrivate := true } hfresh, ?_⟩
        exact mem_withHost ms h
  · simp at hok

/-- C3: a group produced by the create operation has its host among its
members after every prefix of any sequence of add-member and remove-member
calls; and on any state, a remove-member call whose `memberId` is the host of
the group is rejected (403 or 400) and leaves the state, hence the members,
unchanged. -/
theorem host_member_after_member_ops (newId : String) (now : Nat) (save : Except String Unit)
    (st : Server) (name hostId : Option String) (members : Option (List String))
    (hfresh : findGroup st.groups newId = none)
    (hok : (postGroups newId now save st name hostId members).1.status = 201) :
    (∀ (ops : List MemberOp) (k : Nat),
        hostInMembers
          (runMemberOps (postGroups newId now save st name hostId members).2 newId (ops.take k))
          newId) ∧
      (∀ (st' : Server) (groupId : String) (g : Group) (now' : Nat) (save' : Except String Unit)
          (userId : String), findGroup st'.groups groupId = some g →
        ((removeMember now' save' st' groupId g.hostId userId).1 =
            { status := 403, body := .error "Not authorized to remove this member" } ∨
          (removeMember now' save' st' groupId g.hostId userId).1 =
            { status := 400, body := .error "Cannot remove the host from the group" }) ∧
          (removeMember now' save' st' groupId g.hostId userId).2 = st') := by
  refine ⟨fun ops k => runMemberOps_hostInMembers newId _ _
    (postGroups_hostInMembers newId now save st name hostId members hfresh hok), ?_⟩
  intro st' groupId g now' save' userId hg
  unfold removeMember
  rw [hg]
  dsimp only
  by_cases hauth : (g.hostId ≠ userId && userId ≠ g.hostId) = true
  · rw [if_pos hauth]
    exact ⟨Or.inl rfl, rfl⟩
  · rw [if_neg hauth, if_pos rfl]
    exact ⟨Or.inr rfl, rfl⟩

/-- Witness of C3: the group `Trip` created by `u1` with members `[u2]`, then
`u1` tries to remove itself, adds `u3`, and `u2` leaves. -/
theorem host_member_after_member_ops_witness :
    hostInMembers
      (runMemberOps
        (postGroups "g1" 1 (.ok ()) Server.empty (some "Trip") (some "u1") (some ["u2"])).2 "g1"
        ([MemberOp.remove 2 (.ok ()) "u1" "u1", MemberOp.add 3 (.ok ()) "u1" "u3",
          MemberOp.remove 4 (.ok ()) "u2" "u2"].take 3))
      "g1" :=
  (host_member_after_member_ops "g1" 1 (.ok ()) Server.empty (some "Trip") (some "u1")
    (some ["u2"]) (by decide) (by decide)).1 _ 3

/-- C4 (the code at the failing input): on the group `g1` with host `u1` and
members `[u1]`, the update request with `members: [u2]` is answered 200 and
stores the members `[u2]`: the host `u1` is no longer a member. -/
theorem putGroup_drops_host :
    (putGroup 5 (.ok ()) tripServer "g1" none (some ["u2"]) none).1.status = 200 ∧
      findGroup (putGroup 5 (.ok ()) tripServer "g1" none (some ["u2"]) none).2.groups "g1" =
        some { tripGroup with members := ["u2"], updatedAt := 5 } ∧
      tripGroup.hostId ∈ tripGroup.members ∧
      tripGroup.hostId ∉ ["u2"] := by
  refine ⟨by decide, by decide, by decide, by decide⟩

/-- C5 (the code at the failing input): `u1` has `hasConsented = false`.
`POST /api/messages` answers 403 and leaves the state unchanged, while the
legacy `POST /api/generate-response` with the same user and content answers
200 and persists both the user's message and the reply. -/
theorem legacy_endpoint_skips_consent :
    postMessages (upstreamDirect "Hello!") unconsentedServer (some "u1") (some "hi") =
        ({ status := 403, body := .error "User has not consented to AI chat" },
          unconsentedServer) ∧
      (postGenerateResponse (upstreamDirect "Hello!") unconsentedServer (some "hi") (some "u1")).1 =
        { status := 200, body := .reply "Hello!" "u1" } ∧
      (postGenerateResponse (upstreamDirect "Hello!") unconsentedServer (some "hi")
          (some "u1")).2.messages =
        [{ senderId := "u1", receiverId := "dnya", content := "hi", timestamp := 1 },
         { senderId := "dnya", receiverId := "u1", content := "Hello!", timestamp := 2 }] := by
  refine ⟨by decide, by decide, by decide⟩

/-- C6 (the code at the failing input): in `eavesdropServer` the only
connection registered for a member of `g1` is `s1`. A send by the member `u1`
over HTTP delivers `group:message` to `s1`; the same send over the live
`group:sendMessage` event delivers it to `s2` only, a connection registered
for no member, and not to `s1`. -/
theorem live_send_reaches_room_not_members :
    registeredMemberConnections eavesdropServer tripGroup = ["s1"] ∧
      groupMessageRecipients
        (postGroupMessage toyEnv eavesdropServer "g1" "u1" (some "Ann") (some "hi") none).2.outbox =
        ["s1"] ∧
      groupMessageRecipients
        (onGroupSendMessage toyEnv eavesdropServer "s1" "g1" "u1" (some "Ann") (some "hi")
          none).outbox = ["s2"] := by
  refine ⟨by decide, by decide, by decide⟩

/-- C7: when the group exists and `senderId` is not one of its members, the
HTTP send answers 403 `Not a member of this group` and returns the state
unchanged; the live `group:sendMessage` changes nothing but the outbox, to
which it adds the single event `error` with the same text for the requesting
socket: no group message is persisted, no `group:message` event is delivered
and the typing tracker is unchanged. -/
theorem non_member_send_rejected (env : SendEnv) (st : Server)
    (socketId groupId senderId : String) (senderName content imageUrl : Option String)
    (g : Group) (hg : findGroup st.groups groupId = some g) (hnm : senderId ∉ g.members) :
    postGroupMessage env st groupId senderId senderName content imageUrl =
        ({ status := 403, body := .error "Not a member of this group" }, st) ∧
      (onGroupSendMessage env st socketId groupId senderId senderName content imageUrl).outbox =
        st.outbox ++ [(socketId, .error "Not a member of this group")] ∧
      (onGroupSendMessage env st socketId groupId senderId senderName content
          imageUrl).groupMessages = st.groupMessages ∧
      (onGroupSendMessage env st socketId groupId senderId senderName content
          imageUrl).typingUsers = st.typingUsers ∧
      groupMessageRecipients
          (onGroupSendMessage env st socketId groupId senderId senderName content
            imageUrl).outbox = groupMessageRecipients st.outbox := by
  have hc : (!g.members.contains senderId) = true := by simpa using hnm
  have hlive : onGroupSendMessage env st socketId groupId senderId senderName content imageUrl =
      socketEmit st socketId (.error "Not a member of this group") := by
    unfold onGroupSendMessage
    rw [hg]
    dsimp only
    rw [if_pos hc]
  refine ⟨?_, ?_, ?_, ?_, ?_⟩
  · unfold postGroupMessage
    rw [hg]
    dsimp only
    rw [if_pos hc]
  · rw [hlive]; rfl
  · rw [hlive]; rfl
  · rw [hlive]; rfl
  · rw [hlive]
    simp [socketEmit, groupMessageRecipients, List.filterMap_append]

/-- Witness of C7: `u9` is not a member of the group `g1`. -/
theorem non_member_send_rejected_witness :
    postGroupMessage toyEnv tripServer "g1" "u9" (some "Eve") (some "hi") none =
        ({ status := 403, body := .error "Not a member of this group" }, tripServer) ∧
      (onGroupSendMessage toyEnv tripServer "s9" "g1" "u9" (some "Eve") (some "hi") none).outbox =
        tripServer.outbox ++ [("s9", .error "Not a member of this group")] ∧
      (onGroupSendMessage toyEnv tripServer "s9" "g1" "u9" (some "Eve") (some "hi")
          none).groupMessages = tripServer.groupMessages ∧
      (onGroupSendMessage toyEnv tripServer "s9" "g1" "u9" (some "Eve") (some "hi")
          none).typingUsers = tripServer.typingUsers ∧
      groupMessageRecipients
          (onGroupSendMessage toyEnv tripServer "s9" "g1" "u9" (some "Eve") (some "hi")
            none).outbox = groupMessageRecipients tripServer.outbox :=
  non_member_send_rejected toyEnv tripServer "s9" "g1" "u9" (some "Eve") (some "hi") none
    tripGroup (by decide) (by decide)

/-- C8 (the code at the failing input): with twenty-one persisted turns,
`loadConversationHistory` returns the twenty oldest (ascending sort, then
`limit(20)`), not the twenty most recent: the latest turn is missing and the
oldest is present. -/
theorem loadConversationHistory_keeps_oldest :
    loadConversationHistory twentyOneTurns "u1" =
        (twentyOneTurns.take 20).map (toHistoryEntry "u1") ∧
      loadConversationHistory twentyOneTurns "u1" ≠
        (twentyOneTurns.drop 1).map (toHistoryEntry "u1") ∧
      toHistoryEntry "u1" (turn 20) ∉ loadConversationHistory twentyOneTurns "u1" ∧
      toHistoryEntry "u1" (turn 0) ∈ loadConversationHistory twentyOneTurns "u1" := by
  refine ⟨by decide, by decide, by decide, by decide⟩

theorem JsMap.get_set_self {β : Type} (m : JsMap β) (k : String) (v : β) :
    JsMap.get (JsMap.set m k v) k = some v := by
  induction m with
  | nil => simp [JsMap.set, JsMap.get]
  | cons e rest ih =>
    obtain ⟨k', v'⟩ := e
    by_cases h : k' = k
    · simp [JsMap.set, JsMap.get, h]
    · simp [JsMap.set, JsMap.get, h, ih]

theorem JsMap.get_set_of_ne {β : Type} (m : JsMap β) (k k' : String) (v : β) (h : k' ≠ k) :
    JsMap.get (JsMap.set m k v) k' = JsMap.get m k' := by
  induction m with
  | nil => simp [JsMap.set, JsMap.get, h.symm]
  | cons e rest ih =>
    obtain ⟨k₀, v₀⟩ := e
    by_cases h0 : k₀ = k
    · subst h0
      simp [JsMap.set, JsMap.get, h.symm]
    · by_cases h1 : k₀ = k'
      · subst h1
        simp [JsMap.set, JsMap.get, h0]
      · simp [JsMap.set, JsMap.get, h0, h1, ih]

theorem JsMap.countKey_of_not_mem {β : Type} (m : JsMap β) (k : String)
    (h : k ∉ m.map Prod.fst) : JsMap.countKey m k = 0 := by
  induction m with
  | nil => rfl
  | cons e rest ih =>
    obtain ⟨k', v'⟩ := e
    simp only [List.map_cons, List.mem_cons, not_or] at h
    have hk : k' ≠ k := fun e => h.1 e.symm
    have := ih h.2
    simp only [JsMap.countKey] at this ⊢
    simpa [List.filter_cons, hk] using this

theorem JsMap.keys_set {β : Type} (m : JsMap β) (k : String) (v : β) (x : String) :
    x ∈ (JsMap.set m k v).map Prod.fst ↔ x = k ∨ x ∈ m.map Prod.fst := by
  induction m with
  | nil => simp [JsMap.set]
  | cons e rest ih =>
    obtain ⟨k', v'⟩ := e
    by_cases h : k' = k
    · subst h
      simp [JsMap.set]
    · simp only [JsMap.set, h, if_false, List.map_cons, List.mem_cons, ih]
      tauto

theorem JsMap.wf_set {β : Type} (m : JsMap β) (k : String) (v : β) (h : JsMap.WF m) :
    JsMap.WF (JsMap.set m k v) := by
  induction m with
  | nil => simp [JsMap.set, JsMap.WF]
  | cons e rest ih =>
    obtain ⟨k', v'⟩ := e
    simp only [JsMap.WF, List.map_cons, List.nodup_cons] at h
    by_cases hk : k' = k
    · subst hk
      simpa [JsMap.set, JsMap.WF] using h
    · simp only [JsMap.set, hk, if_false, JsMap.WF, List.map_cons, List.nodup_cons]
      refine ⟨?_, ih h.2⟩
      intro hmem
      rcases (JsMap.keys_set rest k v k').1 hmem with h1 | h1
      · exact hk h1
      · exact h.1 h1

theorem JsMap.countKey_set {β : Type} (m : JsMap β) (k : String) (v : β) (h : JsMap.WF m) :
    JsMap.countKey (JsMap.set m k v) k = 1 := by
  induction m with
  | nil => simp [JsMap.set, JsMap.countKey]
  | cons e rest ih =>
    obtain ⟨k', v'⟩ := e
    simp only [JsMap.WF, List.map_cons, List.nodup_cons] at h
    by_cases hk : k' = k
    · subst hk
      have h0 := JsMap.countKey_of_not_mem rest k' h.1
      simp only [JsMap.countKey] at h0 ⊢
      simp [JsMap.set, List.filter_cons, h0]
    · have h1 := ih h.2
      simp only [JsMap.countKey] at h1 ⊢
      simpa [JsMap.set, hk, List.filter_cons] using h1

/-- C10: on a well-formed presence registry, after `user:connect` for `u`
from connection `c1` and then from connection `c2`, the lookup of `u` gives
`c2`, the registry holds exactly one entry for `u`, and it is still
well-formed. -/
theorem register_twice_last_wins (st : Server) (u c1 c2 : String)
    (hwf : JsMap.WF st.activeConnections) :
    JsMap.get (onUserConnect (onUserConnect st c1 u) c2 u).activeConnections u = some c2 ∧
      JsMap.countKey (onUserConnect (onUserConnect st c1 u) c2 u).activeConnections u = 1 ∧
      JsMap.WF (onUserConnect (onUserConnect st c1 u) c2 u).activeConnections := by
  have h1 : JsMap.WF (JsMap.set st.activeConnections u c1) := JsMap.wf_set _ _ _ hwf
  exact ⟨JsMap.get_set_self _ _ _, JsMap.countKey_set _ _ _ h1, JsMap.wf_set _ _ _ h1⟩

/-- Witness of C10: `u1` registers from `s1` and then from `s2` on a server
where `u2` is registered. -/
theorem register_twice_last_wins_witness :
    JsMap.get (onUserConnect (onUserConnect (onUserConnect Server.empty "s0" "u2") "s1" "u1")
        "s2" "u1").activeConnections "u1" = some "s2" ∧
      JsMap.countKey (onUserConnect (onUserConnect (onUserConnect Server.empty "s0" "u2") "s1" "u1")
        "s2" "u1").activeConnections "u1" = 1 ∧
      JsMap.WF (onUserConnect (onUserConnect (onUserConnect Server.empty "s0" "u2") "s1" "u1")
        "s2" "u1").activeConnections :=
  register_twice_last_wins (onUserConnect Server.empty "s0" "u2") "u1" "s1" "s2"
    (by simp [JsMap.WF, onUserConnect, Server.empty, JsMap.set])

theorem JsMap.get_delete_self {β : Type} (m : JsMap β) (k : String) :
    JsMap.get (JsMap.delete m k) k = none := by
  induction m with
  | nil => rfl
  | cons e rest ih =>
    obtain ⟨k', v'⟩ := e
    simp only [JsMap.delete] at ih ⊢
    by_cases h : k' = k
    · simpa [List.filter_cons, h] using ih
    · simpa [List.filter_cons, h, JsMap.get] using ih

theorem JsMap.get_delete_of_ne {β : Type} (m : JsMap β) (k k' : String) (h : k' ≠ k) :
    JsMap.get (JsMap.delete m k) k' = JsMap.get m k' := by
  induction m with
  | nil => rfl
  | cons e rest ih =>
    obtain ⟨k₀, v₀⟩ := e
    simp only [JsMap.delete] at ih ⊢
    by_cases h0 : k₀ = k
    · subst h0
      have hne : ¬ k₀ = k' := fun e => h e.symm
      simpa [List.filter_cons, JsMap.get, hne] using ih
    · by_cases h1 : k₀ = k'
      · subst h1
        simp [List.filter_cons, JsMap.get, h0]
      · simpa [List.filter_cons, JsMap.get, h0, h1] using ih

theorem JsMap.mem_of_get {β : Type} (m : JsMap β) (k : String) (v : β)
    (h : JsMap.get m k = some v) : (k, v) ∈ m := by
  induction m with
  | nil => simp [JsMap.get] at h
  | cons e rest ih =>
    obtain ⟨k', v'⟩ := e
    by_cases hk : k' = k
    · subst hk
      simp only [JsMap.get, if_true, Option.some.injEq] at h
      simp [h]
    · simp only [JsMap.get, hk, if_false] at h
      exact List.mem_cons_of_mem _ (ih h)

theorem firstBoundUser_get (m : JsMap String) (c u : String) (hwf : JsMap.WF m)
    (h : firstBoundUser m c = some u) : JsMap.get m u = some c := by
  induction m with
  | nil => simp [firstBoundUser] at h
  | cons e rest ih =>
    obtain ⟨k, v⟩ := e
    simp only [JsMap.WF, List.map_cons, List.nodup_cons] at hwf
    by_cases hv : v = c
    · subst hv
      simp only [firstBoundUser, List.find?_cons, decide_True, Option.map_some',
        Option.some.injEq] at h
      subst h
      simp [JsMap.get]
    · have h' : firstBoundUser rest c = some u := by
        simpa [firstBoundUser, List.find?_cons, hv] using h
      have hr := ih hwf.2 h'
      have hmem : u ∈ rest.map Prod.fst :=
        List.mem_map_of_mem Prod.fst (JsMap.mem_of_get rest u c hr)
      have hku : k ≠ u := fun e => hwf.1 (e ▸ hmem)
      simpa [JsMap.get, hku] using hr

theorem firstBoundUser_none (m : JsMap String) (c : String) (h : firstBoundUser m c = none)
    (u : String) : JsMap.get m u ≠ some c := by
  intro hg
  have hmem := JsMap.mem_of_get m u c hg
  simp only [firstBoundUser, Option.map_eq_none', List.find?_eq_none] at h
  have := h _ hmem
  simp at this

theorem clearTyping_foldl_activeConnections (userId : String)
    (entries : List (String × JsMap (Option String))) (acc : Server) :
    (entries.foldl
      (fun acc entry =>
        if entry.2.has userId then
          ioToEmit
            { acc with typingUsers := acc.typingUsers.set entry.1 (entry.2.delete userId) }
            (groupRoom entry.1)
            (.groupTyping entry.1 userId ((entry.2.get userId).getD none) false)
        else acc)
      acc).activeConnections = acc.activeConnections := by
  induction entries generalizing acc with
  | nil => rfl
  | cons e rest ih =>
    simp only [List.foldl_cons]
    rw [ih]
    split <;> rfl

theorem clearTyping_activeConnections (st : Server) (userId : String) :
    (clearTyping st userId).activeConnections = st.activeConnections :=
  clearTyping_foldl_activeConnections userId st.typingUsers st

/-- C9 (as stated, refuted): `u1` and `u2` are both registered from the
connection `s1`; after the disconnect handler runs for `s1`, the lookup of
`u2`, which was bound to `s1`, still gives `s1`. -/
theorem disconnect_leaves_second_user :
    JsMap.get sharedSocketServer.activeConnections "u1" = some "s1" ∧
      JsMap.get sharedSocketServer.activeConnections "u2" = some "s1" ∧
      JsMap.get (onDisconnect sharedSocketServer "s1").activeConnections "u2" = some "s1" := by
  refine ⟨by decide, by decide, by decide⟩

/-- C9 (amended): on a well-formed presence registry, when some user is
bound to the connection `c`, the disconnect handler for `c` removes the entry
of the first such user `u` in registration order (its lookup becomes none)
and leaves the lookup of every other user unchanged; when no user is bound to
`c` the registry is unchanged. -/
theorem disconnect_removes_first_bound (st : Server) (c : String)
    (hwf : JsMap.WF st.activeConnections) :
    (∀ u, firstBoundUser st.activeConnections c = some u →
        JsMap.get st.activeConnections u = some c ∧
          JsMap.get (onDisconnect st c).activeConnections u = none ∧
          ∀ v, v ≠ u →
            JsMap.get (onDisconnect st c).activeConnections v =
              JsMap.get st.activeConnections v) ∧
      (firstBoundUser st.activeConnections c = none →
        (onDisconnect st c).activeConnections = st.activeConnections ∧
          ∀ u, JsMap.get st.activeConnections u ≠ some c) := by
  constructor
  · intro u hu
    have hd : (onDisconnect st c).activeConnections = JsMap.delete st.activeConnections u := by
      simp only [onDisconnect, hu]
      rw [clearTyping_activeConnections]
    refine ⟨firstBoundUser_get _ c u hwf hu, ?_, ?_⟩
    · rw [hd]
      exact JsMap.get_delete_self _ _
    · intro v hv
      rw [hd]
      exact JsMap.get_delete_of_ne _ _ _ hv
  · intro hn
    refine ⟨?_, firstBoundUser_none _ c hn⟩
    simp only [onDisconnect, hn]

/-- Witness of C9 (amended): `u2` is registered from `s0` and `u1` from `s1`,
and `s1` disconnects. -/
theorem disconnect_removes_first_bound_witness :
    JsMap.get (onDisconnect (onUserConnect (onUserConnect Server.empty "s0" "u2") "s1" "u1")
        "s1").activeConnections "u1" = none ∧
      JsMap.get (onDisconnect (onUserConnect (onUserConnect Server.empty "s0" "u2") "s1" "u1")
        "s1").activeConnections "u2" = some "s0" := by
  have h := (disconnect_removes_first_bound
    (onUserConnect (onUserConnect Server.empty "s0" "u2") "s1" "u1") "s1"
    (by simp [JsMap.WF, onUserConnect, Server.empty, JsMap.set])).1 "u1" (by decide)
  exact ⟨h.2.1, by rw [h.2.2 "u2" (by decide)]; decide⟩

/-- C11 (the code at the failing input): `u1`, a member of `g1`, has a
typing entry in `g1`. A send by `u1` over the live `group:sendMessage` event
persists the message and removes the entry; the same send over HTTP is
answered 201, persists the message and leaves the entry in place. -/
theorem http_send_keeps_typing_entry :
    typingEntry typingServer.typingUsers "g1" "u1" = some (some "Ann") ∧
      (onGroupSendMessage toyEnv typingServer "s1" "g1" "u1" (some "Ann") (some "hi")
          none).groupMessages.length = 1 ∧
      typingEntry
          (onGroupSendMessage toyEnv typingServer "s1" "g1" "u1" (some "Ann") (some "hi")
            none).typingUsers "g1" "u1" = none ∧
      (postGroupMessage toyEnv typingServer "g1" "u1" (some "Ann") (some "hi") none).1.status =
        201 ∧
      (postGroupMessage toyEnv typingServer "g1" "u1" (some "Ann") (some "hi")
          none).2.groupMessages.length = 1 ∧
      typingEntry
          (postGroupMessage toyEnv typingServer "g1" "u1" (some "Ann") (some "hi")
            none).2.typingUsers "g1" "u1" = some (some "Ann") := by
  refine ⟨by decide, by decide, by decide, by decide, by decide, by decide⟩

theorem onGroupTyping_get_self (st : Server) (socketId groupId userId : String)
    (userName : Option String) (isTyping : Bool) :
    (onGroupTyping st socketId groupId userId userName isTyping).typingUsers.get groupId =
      some (if isTyping then (typingSet st.typingUsers groupId).set userId userName
        else (typingSet st.typingUsers groupId).delete userId) := by
  simp only [onGroupTyping, socketToEmit, typingSet]
  rw [JsMap.get_set_self]
  cases h : JsMap.get st.typingUsers groupId with
  | none => simp [JsMap.has, h, JsMap.get_set_self]
  | some m => simp [JsMap.has, h]

theorem onGroupTyping_get_of_ne (st : Server) (socketId groupId userId : String)
    (userName : Option String) (isTyping : Bool) (g : String) (hg : g ≠ groupId) :
    (onGroupTyping st socketId groupId userId userName isTyping).typingUsers.get g =
      st.typingUsers.get g := by
  simp only [onGroupTyping, socketToEmit]
  rw [JsMap.get_set_of_ne _ _ _ _ hg]
  split
  · rfl
  · exact JsMap.get_set_of_ne _ _ _ _ hg

theorem typingEntry_eq_typingSet (typingUsers : JsMap (JsMap (Option String)))
    (groupId userId : String) :
    typingEntry typingUsers groupId userId = (typingSet typingUsers groupId).get userId := by
  unfold typingEntry typingSet
  cases JsMap.get typingUsers groupId <;> rfl

/-- C12: `group:typing` with `isTyping` true and then false, for the same
group `g`, user `u` and name: if `g` had no typing entry before, its typing
set is empty afterwards; from any starting state `u` has no entry in `g`
afterwards and the entry of every other (group, user) pair is what it was. -/
theorem typing_on_then_off (st : Server) (socketId g u : String) (name : Option String) :
    (typingSet st.typingUsers g = [] →
        typingSet
          (onGroupTyping (onGroupTyping st socketId g u name true) socketId g u name
            false).typingUsers g = []) ∧
      typingEntry
          (onGroupTyping (onGroupTyping st socketId g u name true) socketId g u name
            false).typingUsers g u = none ∧
      ∀ g' u', (g', u') ≠ (g, u) →
        typingEntry
            (onGroupTyping (onGroupTyping st socketId g u name true) socketId g u name
              false).typingUsers g' u' = typingEntry st.typingUsers g' u' := by
  have h1 : typingSet (onGroupTyping st socketId g u name true).typingUsers g =
      (typingSet st.typingUsers g).set u name := by
    have := onGroupTyping_get_self st socketId g u name true
    simp only [if_true] at this
    simp [typingSet, this]
  have h2 : typingSet
      (onGroupTyping (onGroupTyping st socketId g u name true) socketId g u name
        false).typingUsers g = ((typingSet st.typingUsers g).set u name).delete u := by
    have := onGroupTyping_get_self (onGroupTyping st socketId g u name true) socketId g u name
      false
    rw [h1] at this
    simp only [Bool.false_eq_true, if_false] at this
    simp [typingSet, this]
  refine ⟨?_, ?_, ?_⟩
  · intro h0
    rw [h2, h0]
    simp [JsMap.set, JsMap.delete]
  · rw [typingEntry_eq_typingSet, h2]
    exact JsMap.get_delete_self _ _
  · intro g' u' hne
    by_cases hg : g' = g
    · subst hg
      have hu : u' ≠ u := fun e => hne (by rw [e])
      rw [typingEntry_eq_typingSet, typingEntry_eq_typingSet, h2,
        JsMap.get_delete_of_ne _ _ _ hu, JsMap.get_set_of_ne _ _ _ _ hu]
    · unfold typingEntry
      rw [onGroupTyping_get_of_ne _ _ _ _ _ _ _ hg, onGroupTyping_get_of_ne _ _ _ _ _ _ _ hg]

/-- Witness of C12: on the empty server, `u1` starts and stops typing in
`g1`. -/
theorem typing_on_then_off_witness :
    typingSet
        (onGroupTyping (onGroupTyping Server.empty "s1" "g1" "u1" (some "Ann") true) "s1" "g1"
          "u1" (some "Ann") false).typingUsers "g1" = [] :=
  (typing_on_then_off Server.empty "s1" "g1" "u1" (some "Ann")).1 (by decide)

theorem toHex_injective (a b : List Byte) (h : toHex a = toHex b) : a = b := by
  have := congrArg bufferFromHex h
  simpa [bufferFromHex_toHex] using this

theorem record_iv_injective (iv₁ iv₂ : List Byte) (ct₁ ct₂ : List Char)
    (h : toHex iv₁ ++ ':' :: ct₁ = toHex iv₂ ++ ':' :: ct₂) : iv₁ = iv₂ := by
  have hs := congrArg (splitOn ':') h
  rw [splitOn_append _ _ _ (colon_not_mem_toHex iv₁),
    splitOn_append _ _ _ (colon_not_mem_toHex iv₂)] at hs
  exact toHex_injective _ _ (List.cons.inj hs).1

/-- C13: for every plaintext and key, two calls of `encryptMessage` that
draw different IVs and return records return different records (the empty
plaintext is returned before any IV is drawn); and with a lawful cipher, a
key that is the hex encoding of 32 bytes and 16-byte IVs, both calls do
return. -/
theorem encryptMessage_distinct_iv (C : Aes256Cbc) (m : JsString) (k : String)
    (iv₁ iv₂ : List Byte) :
    (∀ d₁ d₂ r₁ r₂, encryptMessageDraw C iv₁ m k = (some d₁, .ok r₁) →
        encryptMessageDraw C iv₂ m k = (some d₂, .ok r₂) → d₁ ≠ d₂ → r₁ ≠ r₂) ∧
      (C.Lawful → (bufferFromHex k.data).length = 32 → iv₁.length = 16 → iv₂.length = 16 →
        ∃ r₁ r₂, encryptMessage C iv₁ m k = .ok r₁ ∧ encryptMessage C iv₂ m k = .ok r₂) := by
  constructor
  · intro d₁ d₂ r₁ r₂ e₁ e₂ hd h
    by_cases hm : m = []
    · simp [encryptMessageDraw, hm] at e₁
    · simp only [encryptMessageDraw, hm, if_false, Prod.mk.injEq, Option.some.injEq] at e₁ e₂
      obtain ⟨hd₁, e₁⟩ := e₁
      obtain ⟨hd₂, e₂⟩ := e₂
      cases c₁ : C.encrypt (bufferFromHex k.data) iv₁ m with
      | error e => simp [c₁] at e₁
      | ok ct₁ =>
        cases c₂ : C.encrypt (bufferFromHex k.data) iv₂ m with
        | error e => simp [c₂] at e₂
        | ok ct₂ =>
          simp only [c₁, Except.ok.injEq] at e₁
          simp only [c₂, Except.ok.injEq] at e₂
          rw [← e₁, ← e₂] at h
          have := record_iv_injective iv₁ iv₂ ct₁ ct₂ (congrArg String.data h)
          exact hd (hd₁ ▸ hd₂ ▸ this)
  · intro hC hk h₁ h₂
    obtain ⟨r₁, he₁, -⟩ := decrypt_encrypt_wellFormed C hC iv₁ m k hk h₁
    obtain ⟨r₂, he₂, -⟩ := decrypt_encrypt_wellFormed C hC iv₂ m k hk h₂
    exact ⟨r₁, r₂, he₁, he₂⟩

/-- Witness of C13: the toy cipher, the plaintext `hi`, the all-zero and the
all-one IV. -/
theorem encryptMessage_distinct_iv_witness :
    ∃ r₁ r₂,
      encryptMessage toyCipher (List.replicate 16 0) (utf16 "hi")
          (String.mk (List.replicate 64 '0')) = .ok r₁ ∧
        encryptMessage toyCipher (List.replicate 16 1) (utf16 "hi")
          (String.mk (List.replicate 64 '0')) = .ok r₂ ∧
        r₁ ≠ r₂ := by
  have h := encryptMessage_distinct_iv toyCipher (utf16 "hi") (String.mk (List.replicate 64 '0'))
    (List.replicate 16 0) (List.replicate 16 1)
  obtain ⟨r₁, r₂, e₁, e₂⟩ := h.2 toyCipher_lawful (by decide) (by decide) (by decide)
  have hne : utf16 "hi" ≠ [] := by decide
  refine ⟨r₁, r₂, e₁, e₂,
    h.1 (List.replicate 16 0) (List.replicate 16 1) r₁ r₂ ?_ ?_ (by decide)⟩
  · rw [encryptMessageDraw_of_ne _ _ _ _ hne, e₁]
  · rw [encryptMessageDraw_of_ne _ _ _ _ hne, e₂]

/-- C14 (as stated, refuted): the create request with host `u1` and members
`[u1, u1]` is answered 201 and the created group keeps both occurrences: the
host occurs twice in the resulting members. -/
theorem postGroups_keeps_duplicate_host :
    (postGroups "g1" 1 (.ok ()) Server.empty (some "Trip") (some "u1") (some ["u1", "u1"])).1 =
        { status := 201,
          body := .group { tripGroup with members := ["u1", "u1"], createdAt := 1, updatedAt := 1 } } ∧
      List.count "u1" ["u1", "u1"] = 2 := by
  refine ⟨by decide, by decide⟩

/-- C14 (amended): for every create request with a non-empty name, a
non-empty host id and a members array, whose save is accepted, the answer is
201 with a group whose members are `withHost members hostId`, stored last in
the collection. These members contain the host; when the supplied members do
not contain it they are the supplied list with the host appended at the end,
where it occurs exactly once; when they contain it the list is unchanged, so
the host occurs exactly once whenever it was supplied at most once. -/
theorem postGroups_members (newId : String) (now : Nat) (st : Server) (n h : String)
    (ms : List String) (hn : n ≠ "") (hh : h ≠ "") :
    postGroups newId now (.ok ()) st (some n) (some h) (some ms) =
        ({ status := 201,
           body := .group
             { id := newId, name := n, hostId := h, members := withHost ms h, avatar := none,
               createdAt := now, updatedAt := now, description := "", isPrivate := true } },
          { st with groups := st.groups ++
              [{ id := newId, name := n, hostId := h, members := withHost ms h, avatar := none,
                 createdAt := now, updatedAt := now, description := "", isPrivate := true }] }) ∧
      h ∈ withHost ms h ∧
      (h ∉ ms → withHost ms h = ms ++ [h] ∧ List.count h (withHost ms h) = 1) ∧
      (h ∈ ms → withHost ms h = ms) ∧
      (List.count h ms ≤ 1 → List.count h (withHost ms h) = 1) := by
  have hnot : h ∉ ms → withHost ms h = ms ++ [h] ∧ List.count h (withHost ms h) = 1 := by
    intro hmem
    have hw : withHost ms h = ms ++ [h] := by simp [withHost, hmem]
    refine ⟨hw, ?_⟩
    rw [hw, List.count_append, List.count_eq_zero_of_not_mem hmem]
    simp
  have hin : h ∈ ms → withHost ms h = ms := by
    intro hmem
    simp [withHost, hmem]
  refine ⟨?_, mem_withHost ms h, hnot, hin, ?_⟩
  · simp [postGroups, hn, hh]
  · intro hc
    by_cases hmem : h ∈ ms
    · rw [hin hmem]
      have := List.count_pos_iff.2 hmem
      omega
    · exact (hnot hmem).2

/-- Witness of C14 (amended): the scenario of the group `Trip`, host `u1`,
members `[u2]`, which gives the members `[u2, u1]`. -/
theorem postGroups_members_witness :
    withHost ["u2"] "u1" = ["u2"] ++ ["u1"] ∧ List.count "u1" (withHost ["u2"] "u1") = 1 :=
  (postGroups_members "g1" 1 Server.empty "Trip" "u1" ["u2"] (by decide) (by decide)).2.2.1
    (by decide)

theorem preSave_error_of_keyMissing (C : Aes256Cbc) (iv : List Byte) (keyUsers : List KeyUser)
    (message : GroupMessage) (h : keyMissing keyUsers message.senderId = true) :
    ∃ e, preSave C iv keyUsers message = .error e := by
  unfold keyMissing at h
  unfold preSave
  split
  · exact ⟨_, rfl⟩
  · cases hs : findSender keyUsers message.senderId with
    | none => exact ⟨_, rfl⟩
    | some sender =>
      rw [hs] at h
      simp only at h
      simp only [h, if_true]
      exact ⟨_, rfl⟩

theorem saveGroupMessage_error_of_keyMissing (env : SendEnv) (st : Server)
    (groupId senderId : String) (senderName content imageUrl : Option String)
    (h : keyMissing st.keyUsers senderId = true) :
    ∃ e, saveGroupMessage env st groupId senderId senderName content imageUrl = .error e := by
  unfold saveGroupMessage
  cases env.save with
  | error e => exact ⟨e, rfl⟩
  | ok u => exact preSave_error_of_keyMissing env.cipher env.iv st.keyUsers _ h

/-- C15: when the sender's user record or its `encryptionKey` is missing, the
pre-save hook ends with an error for every IV, both send paths persist no
group message (the HTTP path returns the state unchanged and does not answer
201), and `decryptContent` returns the stored document as it is; and when
the sender has a key but `decryptMessage` throws on the stored content,
`decryptContent` also returns the stored document as it is. -/
theorem missing_key_rejects_write_reads_raw (C : Aes256Cbc) (keyUsers : List KeyUser)
    (message : GroupMessage) :
    (keyMissing keyUsers message.senderId = true →
        (∀ iv, ∃ e, preSave C iv keyUsers message = .error e) ∧
          decryptContent C keyUsers message = message) ∧
      (∀ (env : SendEnv) (st : Server) (socketId groupId senderId : String)
          (senderName content imageUrl : Option String),
        keyMissing st.keyUsers senderId = true →
          (postGroupMessage env st groupId senderId senderName content imageUrl).2 = st ∧
            (postGroupMessage env st groupId senderId senderName content imageUrl).1.status ≠
              201 ∧
            (onGroupSendMessage env st socketId groupId senderId senderName content
              imageUrl).groupMessages = st.groupMessages) ∧
      (∀ sender e, findSender keyUsers message.senderId = some sender →
        decryptMessage C message.content (sender.encryptionKey.getD "") = .error e →
          decryptContent C keyUsers message = message) := by
  refine ⟨?_, ?_, ?_⟩
  · intro h
    refine ⟨fun iv => preSave_error_of_keyMissing C iv keyUsers message h, ?_⟩
    unfold keyMissing at h
    unfold decryptContent
    cases hs : findSender keyUsers message.senderId with
    | none => rfl
    | some sender =>
      rw [hs] at h
      simp only at h
      simp only [h, if_true]
  · intro env st socketId groupId senderId senderName content imageUrl h
    obtain ⟨e, he⟩ :=
      saveGroupMessage_error_of_keyMissing env st groupId senderId senderName content imageUrl h
    unfold postGroupMessage onGroupSendMessage
    cases findGroup st.groups groupId with
    | none => exact ⟨rfl, by simp, rfl⟩
    | some group =>
      dsimp only
      by_cases hm : (!group.members.contains senderId) = true
      · rw [if_pos hm, if_pos hm]
        exact ⟨rfl, by simp, rfl⟩
      · rw [if_neg hm, if_neg hm, he]
        exact ⟨rfl, by simp, rfl⟩
  · intro sender e hs he
    unfold decryptContent
    rw [hs]
    dsimp only
    split
    · rfl
    · split
      · rw [he]
      · rename_i hc
        have hc' : message.content = "" := by simpa using hc
        rw [hc'] at he
        simp [decryptMessage] at he

/-- Witness of C15: no user record exists for the sender `u1`. -/
theorem missing_key_rejects_write_reads_raw_witness :
    (∀ iv, ∃ e, preSave toyCipher iv [] plainMessage = .error e) ∧
      decryptContent toyCipher [] plainMessage = plainMessage :=
  (missing_key_rejects_write_reads_raw toyCipher [] plainMessage).1 (by decide)

theorem addMember_cases (now : Nat) (save : Except String Unit) (st : Server)
    (groupId userId newMemberId : String) (g : Group)
    (hg : findGroup st.groups groupId = some g) :
    (userId = g.hostId ∧ newMemberId ∉ g.members ∧ (∃ u, save = .ok u) ∧
        addMember now save st groupId userId newMemberId =
          ({ status := 200,
             body := .group { g with members := g.members ++ [newMemberId], updatedAt := now } },
            { st with
              groups := storeGroup st.groups
                { g with members := g.members ++ [newMemberId], updatedAt := now } })) ∨
      ((userId ≠ g.hostId ∨ newMemberId ∈ g.members ∨ ∃ e, save = .error e) ∧
        (addMember now save st groupId userId newMemberId).1.status ≠ 200 ∧
        (addMember now save st groupId userId newMemberId).2 = st) := by
  unfold addMember
  rw [hg]
  dsimp only
  by_cases hh : g.hostId = userId
  · by_cases hm : newMemberId ∈ g.members
    · right
      have hc : g.members.contains newMemberId = true := by simpa using hm
      simp [hh, hc, hm]
    · cases save with
      | error e =>
        right
        simp [hh, hm]
      | ok u =>
        left
        refine ⟨hh.symm, hm, ⟨u, rfl⟩, ?_⟩
        simp [hh, hm]
  · right
    have hne : userId ≠ g.hostId := fun e => hh e.symm
    simp [hh, hne]

/-- C16 (as stated, refuted): the host `u1` adds `u3`, who is not a member
of `g1`, and the save throws: the answer is 500 and the state is unchanged,
although the caller is the host and the member is new. -/
theorem addMember_failing_save :
    "u1" = tripGroup.hostId ∧ "u3" ∉ tripGroup.members ∧
      addMember 3 (.error "store unavailable") tripServer "g1" "u1" "u3" =
        ({ status := 500, body := .error "Failed to add member" }, tripServer) := by
  refine ⟨by decide, by decide, by decide⟩

/-- C16 (amended): on an existing group, add-member answers 200 if and only
if the caller is the host, `newMemberId` is not yet a member and the save is
accepted. On success the stored group is the old one with `newMemberId`
appended to its members; on any other answer (caller not the host, member
already present, or save refused) the state is unchanged. Members without a
duplicate stay without a duplicate. -/
theorem addMember_host_only_no_duplicate (now : Nat) (save : Except String Unit) (st : Server)
    (groupId userId newMemberId : String) (g : Group)
    (hg : findGroup st.groups groupId = some g) :
    ((addMember now save st groupId userId newMemberId).1.status = 200 ↔
        userId = g.hostId ∧ newMemberId ∉ g.members ∧ ∃ u, save = .ok u) ∧
      ((addMember now save st groupId userId newMemberId).1.status = 200 →
        findGroup (addMember now save st groupId userId newMemberId).2.groups groupId =
          some { g with members := g.members ++ [newMemberId], updatedAt := now }) ∧
      ((addMember now save st groupId userId newMemberId).1.status ≠ 200 →
        (addMember now save st groupId userId newMemberId).2 = st) ∧
      (g.members.Nodup → ∀ g',
        findGroup (addMember now save st groupId userId newMemberId).2.groups groupId = some g' →
          g'.members.Nodup) := by
  have hid := findGroup_id hg
  have hstore : findGroup (storeGroup st.groups
      { g with members := g.members ++ [newMemberId], updatedAt := now }) groupId =
      some { g with members := g.members ++ [newMemberId], updatedAt := now } := by
    have := findGroup_storeGroup st.groups
      { g with members := g.members ++ [newMemberId], updatedAt := now }
    rw [← hid]
    exact this
  rcases addMember_cases now save st groupId userId newMemberId g hg with
    ⟨hh, hm, hs, hres⟩ | ⟨hrej, hst, hun⟩
  · rw [hres]
    refine ⟨⟨fun _ => ⟨hh, hm, hs⟩, fun _ => rfl⟩, fun _ => hstore, fun h => absurd rfl h, ?_⟩
    intro hnd g' hg'
    rw [show ((_ : Response), (_ : Server)).2.groups = storeGroup st.groups
      { g with members := g.members ++ [newMemberId], updatedAt := now } from rfl, hstore] at hg'
    cases hg'
    show (g.members ++ [newMemberId]).Nodup
    rw [List.nodup_append]
    refine ⟨hnd, List.nodup_singleton _, ?_⟩
    intro a ha hb
    rw [List.mem_singleton] at hb
    exact hm (hb ▸ ha)
  · refine ⟨⟨fun h => absurd h hst, fun ⟨hh, hm, u, hs⟩ => ?_⟩, fun h => absurd h hst,
      fun _ => hun, ?_⟩
    · rcases hrej with h1 | h1 | ⟨e, h1⟩
      · exact absurd hh h1
      · exact absurd h1 hm
      · rw [hs] at h1
        cases h1
    · intro hnd g' hg'
      rw [hun, hg] at hg'
      cases hg'
      exact hnd

/-- Witness of C16 (amended): the host `u1` adds `u3` to the group `g1`. -/
theorem addMember_host_only_no_duplicate_witness :
    (addMember 3 (.ok ()) tripServer "g1" "u1" "u3").1.status = 200 ↔
      "u1" = tripGroup.hostId ∧ "u3" ∉ tripGroup.members ∧
        ∃ u, (Except.ok () : Except String Unit) = .ok u :=
  (addMember_host_only_no_duplicate 3 (.ok ()) tripServer "g1" "u1" "u3" tripGroup
    (by decide)).1

theorem preloadPairs_length : ∀ history : List HistoryEntry,
    (preloadPairs history).length = history.length / 2
  | [] => by simp [preloadPairs]
  | [_] => by simp [preloadPairs]
  | _ :: _ :: rest => by
    simp only [preloadPairs, List.length_cons, preloadPairs_length rest]
    omega

theorem preloadPairs_getElem? : ∀ (history : List HistoryEntry) (i : Nat) (a b : HistoryEntry),
    history[2 * i]? = some a → history[2 * i + 1]? = some b →
      (preloadPairs history)[i]? = some (a.text, b.text)
  | [], i, a, b => by simp
  | [x], i, a, b => by
    intro _ h1
    simp at h1
  | x :: y :: rest, 0, a, b => by
    intro h0 h1
    simp only [Nat.mul_zero, List.getElem?_cons_zero, Option.some.injEq] at h0
    simp only [Nat.mul_zero, Nat.zero_add, List.getElem?_cons_succ, List.getElem?_cons_zero,
      Option.some.injEq] at h1
    simp [preloadPairs, h0, h1]
  | x :: y :: rest, i + 1, a, b => by
    intro h0 h1
    rw [show 2 * (i + 1) = 2 * i + 1 + 1 by omega] at h0
    rw [show 2 * (i + 1) + 1 = 2 * i + 1 + 1 + 1 by omega] at h1
    simp only [List.getElem?_cons_succ] at h0 h1
    simp only [preloadPairs, List.getElem?_cons_succ]
    exact preloadPairs_getElem? rest i a b h0 h1

theorem alternates_getElem? : ∀ (history : List HistoryEntry) (i : Nat) (a b : HistoryEntry),
    alternates history = true → history[2 * i]? = some a → history[2 * i + 1]? = some b →
      a.type = .human ∧ b.type = .ai
  | [], i, a, b => by simp
  | [x], i, a, b => by
    intro _ _ h1
    simp at h1
  | x :: y :: rest, 0, a, b => by
    intro halt h0 h1
    simp only [Nat.mul_zero, List.getElem?_cons_zero, Option.some.injEq] at h0
    simp only [Nat.mul_zero, Nat.zero_add, List.getElem?_cons_succ, List.getElem?_cons_zero,
      Option.some.injEq] at h1
    simp only [alternates, Bool.and_eq_true, decide_eq_true_eq] at halt
    rw [← h0, ← h1]
    exact ⟨halt.1.1, halt.1.2⟩
  | x :: y :: rest, i + 1, a, b => by
    intro halt h0 h1
    rw [show 2 * (i + 1) = 2 * i + 1 + 1 by omega] at h0
    rw [show 2 * (i + 1) + 1 = 2 * i + 1 + 1 + 1 by omega] at h1
    simp only [List.getElem?_cons_succ] at h0 h1
    simp only [alternates, Bool.and_eq_true] at halt
    exact alternates_getElem? rest i a b halt.2 h0 h1

/-- C17 (as stated, refuted): `u1` sends `hi` while no chain can be built,
so the request fails with 500 after the message was saved; `u1` then sends
`again`. The chain created for this second request is pre-loaded with the
pair (`hi`, `again`), whose output is a human turn: the history holds two
human turns in a row. -/
theorem preload_pairs_two_human_turns :
    (postMessages upstreamNoChain consentedServer (some "u1") (some "hi")).1.status = 500 ∧
      (postMessages upstreamLater unansweredServer (some "u1") (some "again")).1.status = 200 ∧
      JsMap.get
          (postMessages upstreamLater unansweredServer (some "u1") (some "again")).2.memoryMap
          "u1" = some { preloaded := [("hi", "again")], vectorStore := true } ∧
      loadConversationHistory
          (postMessages upstreamLater unansweredServer (some "u1") (some "again")).2.messages
          "u1" =
        [{ type := .human, text := "hi" }, { type := .human, text := "again" },
         { type := .ai, text := "Hello!" }] := by
  refine ⟨by decide, by decide, by decide, by decide⟩

/-- C17 (amended): for every loaded history of `n` turns the pre-load loop
saves exactly `n / 2` pairs, the `i`-th being the texts of `history[2i]` and
`history[2i+1]`, whatever the types of the two turns; when the history
alternates by position, starting with a human turn, the input of every pair
is a human turn and its output a turn of the assistant. Both branches of
`createUserChain` store the pairs of the loaded history. -/
theorem preloadPairs_by_position (history : List HistoryEntry) :
    (preloadPairs history).length = history.length / 2 ∧
      (∀ i a b, history[2 * i]? = some a → history[2 * i + 1]? = some b →
        (preloadPairs history)[i]? = some (a.text, b.text)) ∧
      (alternates history = true → ∀ i a b, history[2 * i]? = some a →
        history[2 * i + 1]? = some b → a.type = .human ∧ b.type = .ai) ∧
      (∀ (setup : ChainSetup) (st st' : Server) (userId : String),
        loadConversationHistory st.messages userId = history →
        createUserChain setup st userId = .ok st' →
          ∃ vectorStore, JsMap.get st'.memoryMap userId =
            some { preloaded := preloadPairs history, vectorStore := vectorStore }) := by
  refine ⟨preloadPairs_length history, preloadPairs_getElem? history,
    fun h i a b => alternates_getElem? history i a b h, ?_⟩
  intro setup st st' userId hh hc
  unfold createUserChain at hc
  rw [hh] at hc
  cases hr : setup.retrieval with
  | ok u =>
    simp only [hr, Except.ok.injEq] at hc
    rw [← hc]
    exact ⟨true, JsMap.get_set_self _ _ _⟩
  | error e =>
    cases hf : setup.fallback with
    | ok u =>
      simp only [hr, hf, Except.ok.injEq] at hc
      rw [← hc]
      exact ⟨false, JsMap.get_set_self _ _ _⟩
    | error e' => simp [hr, hf] at hc

/-- Witness of C17 (amended): a history of one exchange and a pending human
turn gives the single pair of the exchange. -/
theorem preloadPairs_by_position_witness :
    (preloadPairs
        [{ type := .human, text := "hi" }, { type := .ai, text := "Hello!" },
         { type := .human, text := "again" }])[0]? = some ("hi", "Hello!") :=
  (preloadPairs_by_position
    [{ type := .human, text := "hi" }, { type := .ai, text := "Hello!" },
     { type := .human, text := "again" }]).2.1 0 { type := .human, text := "hi" }
    { type := .ai, text := "Hello!" } rfl rfl

end DynaAi
